import Mathlib

/-!
Shallow embedding of the plugin dispatch engine in
`src/web/server/plugins/manager.ts` (class `PluginManager`).

Modelling conventions:
* JS numbers that are used as integers (priorities, durations, counters,
  timestamps) are `Int`/`Nat`.  `Date.now()` is passed in explicitly as a
  `now : Nat` argument wherever the source calls it.
* Maps (`Map`, plain objects) are association lists; `Map.set` / object
  assignment is `assocSet`, which replaces in place (preserving insertion
  order, as JS `Map` does) or appends.
* Opaque config values are the inductive `CVal`; event `data` payloads are
  association lists of `DVal` (absent / non-object data is `none`).
* A handler (`plugin.onEvent`) is modelled as a total function returning a
  `HandlerOutcome`: normal completion (with an optional result), a thrown
  rejection with a message, or exceeding its deadline.  Wall-clock durations
  are data carried by the outcome.
* Asynchronous fire-and-forget execution of non-blocking plugins is modelled
  by running them at their dispatch point but routing their outputs exactly
  as the source does (telemetry plus the `onInsight` callback, collected in
  `asyncInsights`); none of their result fields reach the dispatch result,
  which is the property of interest.
-/

/-- Opaque plugin configuration value (TS `unknown` at the store boundary). -/
inductive CVal where
  | num : Int → CVal
  | str : String → CVal
  | boolean : Bool → CVal
  | nullv : CVal
  deriving DecidableEq

/-- A value inside an event's `data` record. -/
inductive DVal where
  | str : String → DVal
  | strList : List String → DVal
  | num : Int → DVal
  deriving DecidableEq

/-- Replace the value at `k` in place, or append `(k, v)` — JS object/`Map`
assignment semantics (insertion order preserved). -/
def assocSet {α : Type} : List (String × α) → String → α → List (String × α)
  | [], k, v => [(k, v)]
  | (a, w) :: t, k, v => if a == k then (k, v) :: t else (a, w) :: assocSet t k v

/-- JS spread `{...base, ...patch}`: base keys keep their position but take
the patch's value when present; new patch keys are appended in order. -/
def mergeAssoc (base patch : List (String × DVal)) : List (String × DVal) :=
  patch.foldl (fun acc p => assocSet acc p.1 p.2) base

/-- Capability identifiers (`PluginCapability` in `types.ts`). -/
inductive PluginCapability where
  | permissionAutoDecide
  | messageMutate
  | eventPatch
  | insightToast
  | insightSound
  | insightDesktop
  deriving DecidableEq

/-- The wire name of each capability, used in the "Capability blocked"
insight message. -/
def PluginCapability.capName : PluginCapability → String
  | .permissionAutoDecide => "permission:auto-decide"
  | .messageMutate => "message:mutate"
  | .eventPatch => "event:patch"
  | .insightToast => "insight:toast"
  | .insightSound => "insight:sound"
  | .insightDesktop => "insight:desktop"

inductive InsightLevel where
  | info
  | warning
  | error
  deriving DecidableEq

/-- A user-facing insight produced by a plugin. Optional boolean delivery
flags default to `false` (absent = falsy). -/
structure Insight where
  id : String
  plugin_id : String
  title : String
  message : String
  level : InsightLevel
  timestamp : Nat
  event_name : Option String := none
  session_id : Option String := none
  toast : Bool := false
  sound : Bool := false
  desktop : Bool := false
  deriving DecidableEq

inductive PermBehavior where
  | allow
  | deny
  deriving DecidableEq

structure PermissionAutomationDecision where
  behavior : PermBehavior
  message : String := ""
  plugin_id : String := ""
  deriving DecidableEq

structure UserMessageMutation where
  content : Option String := none
  images : Option (List String) := none
  plugin_id : Option String := none
  deriving DecidableEq

/-- `PluginEventResult` — everything a handler may return (all optional). -/
structure PluginEventResult where
  insights : Option (List Insight) := none
  permissionDecision : Option PermissionAutomationDecision := none
  userMessageMutation : Option UserMessageMutation := none
  eventDataPatch : Option (List (String × DVal)) := none
  deriving DecidableEq

structure PluginEventMeta where
  eventId : String := ""
  sessionId : String := ""
  source : String := ""
  deriving DecidableEq

/-- An event dispatched to plugins. `data := none` models an absent or
non-object payload (the source guards every `data` access with
`typeof data === "object"`). -/
structure PluginEvent where
  name : String
  meta : PluginEventMeta := {}
  data : Option (List (String × DVal)) := none
  deriving DecidableEq

/-- Outcome of invoking a handler under `runWithTimeout`: it resolves (with
an optional result), rejects/throws with a message, or the deadline fires
first.  `durationMs` is the wall-clock time until settlement. -/
inductive HandlerOutcome where
  | ok (durationMs : Nat) (result : Option PluginEventResult)
  | throws (durationMs : Nat) (message : String)
  | deadline

inductive FailPolicy where
  | cont                -- "continue"
  | abortCurrentAction  -- "abort_current_action"
  deriving DecidableEq

/-- `PluginDefinition` (immutable, supplied at registration). -/
structure PluginDefinition where
  id : String
  name : String := ""
  version : String := ""
  description : String := ""
  events : List String
  priority : Int
  blocking : Bool
  timeoutMs : Option Nat := none
  failPolicy : Option FailPolicy := none
  defaultEnabled : Bool := true
  defaultConfig : CVal := .nullv
  validateConfig : Option (CVal → Except String CVal) := none
  capabilities : Option (List PluginCapability) := none
  riskLevel : Option String := none
  apiVersion : Option Nat := none
  onEvent : PluginEvent → CVal → HandlerOutcome

def DEFAULT_TIMEOUT_MS : Nat := 3000

/-- `PersistedState` held by the `PluginStateStore`.
Modelled from the spec: `state-store.ts` is not under `src/`; §4.1 specifies
`getState` as a safe snapshot and `update` as an atomic read-modify-write of
this record, which in a single-threaded model is plain record update. -/
structure PersistedState where
  enabled : List (String × Bool) := []
  config : List (String × CVal) := []
  grants : List (String × List (PluginCapability × Bool)) := []
  deriving DecidableEq

structure PluginStats where
  invocations : Nat := 0
  successes : Nat := 0
  errors : Nat := 0
  timeouts : Nat := 0
  aborted : Nat := 0
  lastDurationMs : Nat := 0
  lastInvokedAt : Option Nat := none
  lastError : Option String := none
  avgDurationMs : Nat := 0
  p95DurationMs : Nat := 0
  deriving DecidableEq

inductive HealthStatus where
  | healthy
  | degraded
  | disabled
  deriving DecidableEq

structure PluginHealth where
  status : HealthStatus
  reason : Option String := none
  updatedAt : Nat
  deriving DecidableEq

def createEmptyStats : PluginStats := {}

def createDefaultHealth (enabled : Bool) (now : Nat) : PluginHealth :=
  { status := if enabled then .healthy else .disabled, updatedAt := now }

/-- The mutable fields of a `PluginManager` instance. -/
structure ManagerState where
  definitions : List PluginDefinition := []
  store : PersistedState := {}
  warnedInvalidConfig : List String := []
  stats : List (String × PluginStats) := []
  health : List (String × PluginHealth) := []
  durationWindows : List (String × List Nat) := []

/-- `PluginManager.register`. -/
def register (plugin : PluginDefinition) (now : Nat) (ms : ManagerState) : ManagerState :=
  let defs :=
    if ms.definitions.any (fun p => p.id == plugin.id) then
      ms.definitions.map (fun p => if p.id == plugin.id then plugin else p)
    else
      ms.definitions ++ [plugin]
  let stats :=
    if (ms.stats.lookup plugin.id).isSome then ms.stats
    else assocSet ms.stats plugin.id createEmptyStats
  let health :=
    if (ms.health.lookup plugin.id).isSome then ms.health
    else assocSet ms.health plugin.id (createDefaultHealth plugin.defaultEnabled now)
  { ms with definitions := defs, stats := stats, health := health }

/-- `PluginManager.resolveConfig`.  Returns the resolved config and the
updated manager state (the store is rewritten to the default when healing
applies; the once-per-process warning set is threaded, the console output
itself is unobservable). -/
def resolveConfig (plugin : PluginDefinition) (stateConfig : Option CVal)
    (persistDefaultOnInvalid : Bool) (ms : ManagerState) : CVal × ManagerState :=
  let rawConfig := stateConfig.getD plugin.defaultConfig
  match plugin.validateConfig with
  | none => (rawConfig, ms)
  | some validate =>
    match validate rawConfig with
    | .ok cfg => (cfg, ms)
    | .error _ =>
      let ms :=
        if ms.warnedInvalidConfig.contains plugin.id then ms
        else { ms with warnedInvalidConfig := ms.warnedInvalidConfig ++ [plugin.id] }
      let ms :=
        if persistDefaultOnInvalid && stateConfig.isSome then
          { ms with store :=
            { ms.store with config := assocSet ms.store.config plugin.id plugin.defaultConfig } }
        else ms
      (plugin.defaultConfig, ms)

/-- The resolved config value is a pure function of the plugin and the
persisted value (healing only affects the store, not the returned value). -/
def resolvedConfigValue (plugin : PluginDefinition) (stateConfig : Option CVal) : CVal :=
  let rawConfig := stateConfig.getD plugin.defaultConfig
  match plugin.validateConfig with
  | none => rawConfig
  | some validate =>
    match validate rawConfig with
    | .ok cfg => cfg
    | .error _ => plugin.defaultConfig

/-- `PluginManager.getRequestedCapabilities`. -/
def getRequestedCapabilities (plugin : PluginDefinition) : List PluginCapability :=
  plugin.capabilities.getD []

/-- Lookup of `state.grants?.[plugin.id]?.[cap]`. -/
def grantLookup (state : PersistedState) (pluginId : String) (cap : PluginCapability) :
    Option Bool :=
  ((state.grants.lookup pluginId).getD []).lookup cap

/-- `PluginManager.resolveCapabilityGrants`, as the total lookup function the
resulting record denotes: a requested capability reads `true` unless the
persisted grant is explicitly `false`; a capability absent from the record
(not requested) reads `undefined`, i.e. falsy. -/
def resolveCapabilityGrants (plugin : PluginDefinition) (state : PersistedState) :
    PluginCapability → Bool :=
  fun cap =>
    (getRequestedCapabilities plugin).contains cap &&
      !(grantLookup state plugin.id cap == some false)

/-- `PluginManager.getGrantedCapabilities`. -/
def getGrantedCapabilities (plugin : PluginDefinition) (state : PersistedState) :
    List PluginCapability :=
  (getRequestedCapabilities plugin).filter (resolveCapabilityGrants plugin state)

/-- Clear an insight's delivery flags that are not granted (the per-insight
effect of `sanitizeResultForCapabilities`'s map). -/
def clearFlags (grants : PluginCapability → Bool) (i : Insight) : Insight :=
  { i with
    toast := i.toast && grants .insightToast,
    sound := i.sound && grants .insightSound,
    desktop := i.desktop && grants .insightDesktop }

/-- Push a capability onto the blocked list unless already present
(`if (!blocked.includes(cap)) blocked.push(cap)`). -/
def pushIfAbsent (blocked : List PluginCapability) (cap : PluginCapability) :
    List PluginCapability :=
  if blocked.contains cap then blocked else blocked ++ [cap]

/-- The insight-mapping pass of `sanitizeResultForCapabilities`: clears
`toast`/`sound`/`desktop` individually when the matching capability is not
granted, recording each newly blocked capability. -/
def sanitizeInsights (grants : PluginCapability → Bool) :
    List Insight → List PluginCapability → List Insight × List PluginCapability
  | [], blocked => ([], blocked)
  | i :: rest, blocked =>
    let (i, blocked) :=
      if i.toast && !grants .insightToast then
        ({ i with toast := false }, pushIfAbsent blocked .insightToast)
      else (i, blocked)
    let (i, blocked) :=
      if i.sound && !grants .insightSound then
        ({ i with sound := false }, pushIfAbsent blocked .insightSound)
      else (i, blocked)
    let (i, blocked) :=
      if i.desktop && !grants .insightDesktop then
        ({ i with desktop := false }, pushIfAbsent blocked .insightDesktop)
      else (i, blocked)
    let pr := sanitizeInsights grants rest blocked
    (i :: pr.fst, pr.snd)

/-- The synthetic warning insight appended when at least one capability was
blocked. -/
def capBlockedInsight (pluginId : String) (now : Nat)
    (blocked : List PluginCapability) : Insight :=
  { id := pluginId ++ "-" ++ toString now ++ "-capability-blocked",
    plugin_id := pluginId,
    title := "Capability blocked",
    message := "Blocked by capability grants: " ++
      String.intercalate ", " (blocked.map PluginCapability.capName),
    level := .warning,
    timestamp := now }

/-- The capabilities blocked by the three field strips, in source order
(permission, message, event). -/
def blockedFields (result : PluginEventResult) (grants : PluginCapability → Bool) :
    List PluginCapability :=
  (if result.permissionDecision.isSome && !grants .permissionAutoDecide then
    [.permissionAutoDecide] else []) ++
  (if result.userMessageMutation.isSome && !grants .messageMutate then
    [.messageMutate] else []) ++
  (if result.eventDataPatch.isSome && !grants .eventPatch then
    [.eventPatch] else [])

/-- The insight pass of the sanitizer over the optional insights list
(`result.insights?.length` guards the map; an empty or absent list is kept
as-is). -/
def sanitizeInsightsPass (grants : PluginCapability → Bool)
    (ins : Option (List Insight)) (blocked : List PluginCapability) :
    Option (List Insight) × List PluginCapability :=
  match ins with
  | some l =>
    if l.length != 0 then
      let ip := sanitizeInsights grants l blocked
      (some ip.fst, ip.snd)
    else (ins, blocked)
  | none => (ins, blocked)

/-- `PluginManager.sanitizeResultForCapabilities`. -/
def sanitizeResultForCapabilities (plugin : PluginDefinition)
    (result : PluginEventResult) (grants : PluginCapability → Bool) (now : Nat) :
    PluginEventResult × List PluginCapability :=
  let ip := sanitizeInsightsPass grants result.insights (blockedFields result grants)
  let sanitized : PluginEventResult :=
    { result with
      permissionDecision :=
        if result.permissionDecision.isSome && !grants .permissionAutoDecide then none
        else result.permissionDecision,
      userMessageMutation :=
        if result.userMessageMutation.isSome && !grants .messageMutate then none
        else result.userMessageMutation,
      eventDataPatch :=
        if result.eventDataPatch.isSome && !grants .eventPatch then none
        else result.eventDataPatch,
      insights := ip.fst }
  let blocked := ip.snd
  if blocked.length > 0 then
    ({ sanitized with
        insights := some ((sanitized.insights.getD []) ++ [capBlockedInsight plugin.id now blocked]) },
      blocked)
  else (sanitized, blocked)

inductive RunOutcome where
  | success
  | error
  | timeout
  | aborted
  deriving DecidableEq

/-- `Math.round(sum / n)` for non-negative integers: round half up.  (The JS
double computation is exact at every representable half-way point for the
magnitudes a duration sum can reach.) -/
def jsRound (sum n : Nat) : Nat := (2 * sum + n) / (2 * n)

/-- `Math.ceil(n * 0.95)`.  For every reachable window size `n ≤ 100` the
IEEE-754 product `n * 0.95` rounds to a double whose ceiling equals the exact
`⌈19n/20⌉` (at the multiples of 20, where the exact product is an integer,
the double product rounds to exactly that integer), so the exact formula is
used. -/
def ceil95 (n : Nat) : Nat := (19 * n + 19) / 20

/-- The pure stats-and-window computation of `PluginManager.updateStatsOnRun`
(everything before the map writes): returns the new `PluginStats` record and
the new rolling duration window. -/
def nextStats (prev : PluginStats) (win0 : List Nat) (durationMs : Nat)
    (outcome : RunOutcome) (error : Option String) (now : Nat) : PluginStats × List Nat :=
  let next := { prev with
    invocations := prev.invocations + 1,
    lastDurationMs := durationMs,
    lastInvokedAt := some now }
  let next :=
    match outcome with
    | .success => { next with successes := next.successes + 1 }
    | .error => { next with errors := next.errors + 1 }
    | .timeout => { next with timeouts := next.timeouts + 1 }
    | .aborted => { next with aborted := next.aborted + 1 }
  let next :=  -- `if (error)`: the empty string is falsy
    match error with
    | some e => if e = "" then next else { next with lastError := some e }
    | none => next
  let win := win0 ++ [durationMs]
  let win := if win.length > 100 then win.drop (win.length - 100) else win
  let sum := win.foldl (· + ·) 0
  let next := { next with avgDurationMs := if win.length > 0 then jsRound sum win.length else 0 }
  let sorted := win.insertionSort (· ≤ ·)
  let next :=
    if sorted.length > 0 then
      let idx := min (sorted.length - 1) (ceil95 sorted.length - 1)
      { next with p95DurationMs := sorted.getD idx 0 }
    else next
  (next, win)

/-- The health write at the end of `updateStatsOnRun`. -/
def healthOfStats (next : PluginStats) (now : Nat) : PluginHealth :=
  let degraded := next.errors + next.timeouts ≥ 3 && next.invocations > 0
  { status := if degraded then .degraded else .healthy,
    reason := if degraded then some "High recent error rate" else none,
    updatedAt := now }

/-- `PluginManager.updateStatsOnRun`. -/
def updateStatsOnRun (pluginId : String) (durationMs : Nat) (outcome : RunOutcome)
    (error : Option String) (now : Nat) (ms : ManagerState) : ManagerState :=
  let pr := nextStats ((ms.stats.lookup pluginId).getD createEmptyStats)
    ((ms.durationWindows.lookup pluginId).getD []) durationMs outcome error now
  { ms with
    stats := assocSet ms.stats pluginId pr.fst,
    durationWindows := assocSet ms.durationWindows pluginId pr.snd,
    health := assocSet ms.health pluginId (healthOfStats pr.fst now) }

/-- `PluginManager.updateHealthFromEnabled`. -/
def updateHealthFromEnabled (pluginId : String) (enabled : Bool) (now : Nat)
    (ms : ManagerState) : ManagerState :=
  if !enabled then
    let h : PluginHealth :=
      { status := .disabled, reason := some "Plugin disabled", updatedAt := now }
    { ms with health := assocSet ms.health pluginId h }
  else
    let h : PluginHealth := { status := .healthy, updatedAt := now }
    match ms.health.lookup pluginId with
    | none => { ms with health := assocSet ms.health pluginId h }
    | some existing =>
      if existing.status = .disabled then
        { ms with health := assocSet ms.health pluginId h }
      else ms

/-- The enabled flag the orchestrator resolves for a plugin: the persisted
boolean when present, else the definition's default. -/
def resolvedEnabled (state : PersistedState) (plugin : PluginDefinition) : Bool :=
  (state.enabled.lookup plugin.id).getD plugin.defaultEnabled

/-- `PluginRuntimeInfo` — the externally observable snapshot of a plugin. -/
structure PluginRuntimeInfo where
  id : String
  name : String
  version : String
  description : String
  events : List String
  priority : Int
  blocking : Bool
  timeoutMs : Nat
  failPolicy : FailPolicy
  enabled : Bool
  config : CVal
  capabilitiesRequested : List PluginCapability
  capabilitiesGranted : List PluginCapability
  riskLevel : String
  apiVersion : Nat
  health : PluginHealth
  stats : PluginStats
  deriving DecidableEq

/-- The per-plugin body of `PluginManager.list`'s map, as a fold step.
`state` is the snapshot read at the top of `list`. -/
def listStep (state : PersistedState) (now : Nat)
    (acc : List PluginRuntimeInfo × ManagerState) (plugin : PluginDefinition) :
    List PluginRuntimeInfo × ManagerState :=
      let rows := acc.fst
      let enabled := (state.enabled.lookup plugin.id).getD plugin.defaultEnabled
      let rc := resolveConfig plugin (state.config.lookup plugin.id) true acc.snd
      let config := rc.fst
      let ms := rc.snd
      let requested := getRequestedCapabilities plugin
      let granted := getGrantedCapabilities plugin state
      let ms := updateHealthFromEnabled plugin.id enabled now ms
      let row : PluginRuntimeInfo :=
        { id := plugin.id,
          name := plugin.name,
          version := plugin.version,
          description := plugin.description,
          events := plugin.events,
          priority := plugin.priority,
          blocking := plugin.blocking,
          timeoutMs := plugin.timeoutMs.getD DEFAULT_TIMEOUT_MS,
          failPolicy := plugin.failPolicy.getD .cont,
          enabled := enabled,
          config := config,
          capabilitiesRequested := requested,
          capabilitiesGranted := granted,
          riskLevel := plugin.riskLevel.getD "low",
          apiVersion := plugin.apiVersion.getD 1,
          health := (ms.health.lookup plugin.id).getD (createDefaultHealth enabled now),
          stats := (ms.stats.lookup plugin.id).getD createEmptyStats }
      (rows ++ [row], ms)

/-- `PluginManager.list`.  Reads a snapshot of the persisted state up front;
per-plugin config healing writes through to the live store. -/
def list (now : Nat) (ms0 : ManagerState) : List PluginRuntimeInfo × ManagerState :=
  ms0.definitions.foldl (listStep ms0.store now) ([], ms0)

/-- `PluginManager.setEnabled`. -/
def setEnabled (id : String) (enabled : Bool) (now : Nat) (ms : ManagerState) :
    Option PluginRuntimeInfo × ManagerState :=
  match ms.definitions.find? (fun p => p.id == id) with
  | none => (none, ms)
  | some _ =>
    let ms := { ms with store :=
      { ms.store with enabled := assocSet ms.store.enabled id enabled } }
    let ms := updateHealthFromEnabled id enabled now ms
    let lr := list now ms
    (lr.fst.find? (fun row => row.id == id), lr.snd)

/-- The distinguished error thrown by `updateConfig` on validation failure. -/
structure PluginConfigValidationError where
  pluginId : String
  message : String
  deriving DecidableEq

/-- `PluginManager.updateConfig`.  Throwing is modelled as returning
`Except.error`; the state component is returned alongside. -/
def updateConfig (id : String) (rawConfig : CVal) (now : Nat) (ms : ManagerState) :
    Except PluginConfigValidationError (Option PluginRuntimeInfo) × ManagerState :=
  match ms.definitions.find? (fun p => p.id == id) with
  | none => (.ok none, ms)
  | some plugin =>
    match (match plugin.validateConfig with
           | some validate => validate rawConfig
           | none => .ok rawConfig) with
    | .error msg =>
      (.error { pluginId := id, message := "Invalid config for plugin " ++ id ++ ": " ++ msg },
        ms)
    | .ok config =>
      let ms := { ms with store :=
        { ms.store with config := assocSet ms.store.config id config } }
      let ms := { ms with warnedInvalidConfig := ms.warnedInvalidConfig.filter (· ≠ id) }
      let lr := list now ms
      (.ok (lr.fst.find? (fun row => row.id == id)), lr.snd)

/-- The failure carried by an execution: a deadline hit (with the timeout
that produced the `PluginTimeoutError`) or a thrown/rejected error message. -/
inductive ExecError where
  | timeoutHit (timeoutMs : Nat)
  | thrown (message : String)
  deriving DecidableEq

/-- `err instanceof Error ? err.message : String(err)`. -/
def ExecError.messageOf : ExecError → String
  | .timeoutHit t => "Plugin timeout after " ++ toString t ++ "ms"
  | .thrown msg => msg

def ExecError.isTimeout : ExecError → Bool
  | .timeoutHit _ => true
  | .thrown _ => false

/-- Result of `PluginManager.executePlugin`.  `configUsed` is a ghost field
recording the config value actually passed to the handler. -/
structure ExecOutcome where
  result : Option PluginEventResult := none
  error : Option ExecError := none
  blockedCapabilities : List PluginCapability := []
  durationMs : Nat
  configUsed : CVal
  deriving DecidableEq

/-- `PluginManager.executePlugin`: resolve config (healing enabled), compute
grants from the *current* store, run the handler under its deadline, pass any
result through the capability gate. -/
def executePlugin (plugin : PluginDefinition) (event : PluginEvent)
    (stateConfig : Option CVal) (now : Nat) (ms : ManagerState) :
    ExecOutcome × ManagerState :=
  let rc := resolveConfig plugin stateConfig true ms
  let config := rc.fst
  let ms := rc.snd
  let timeoutMs := plugin.timeoutMs.getD DEFAULT_TIMEOUT_MS
  let grants := resolveCapabilityGrants plugin ms.store
  match plugin.onEvent event config with
  | .deadline =>
    ({ error := some (.timeoutHit timeoutMs), durationMs := timeoutMs, configUsed := config }, ms)
  | .throws d msg =>
    ({ error := some (.thrown msg), durationMs := d, configUsed := config }, ms)
  | .ok d none =>
    ({ result := none, durationMs := d, configUsed := config }, ms)
  | .ok d (some raw) =>
    let sb := sanitizeResultForCapabilities plugin raw grants now
    ({ result := some sb.fst, blockedCapabilities := sb.snd, durationMs := d,
       configUsed := config }, ms)

/-- `toPluginErrorInsight`. -/
def toPluginErrorInsight (pluginId : String) (event : PluginEvent) (err : ExecError)
    (now : Nat) : Insight :=
  { id := pluginId ++ "-" ++ toString now ++ "-error",
    plugin_id := pluginId,
    title := "Plugin error",
    message := err.messageOf,
    level := .error,
    timestamp := now,
    event_name := some event.name,
    session_id := some event.meta.sessionId }

/-- `{...userMessageMutation, ...result.userMessageMutation}`: field-by-field
shallow overwrite (an absent field does not overwrite). -/
def mergeMutation (prev : Option UserMessageMutation) (m : UserMessageMutation) :
    UserMessageMutation :=
  let p := prev.getD {}
  { content := if m.content.isSome then m.content else p.content,
    images := if m.images.isSome then m.images else p.images,
    plugin_id := if m.plugin_id.isSome then m.plugin_id else p.plugin_id }

/-- `EmitResult` returned by `PluginManager.emit`. -/
structure EmitResult where
  insights : List Insight := []
  permissionDecision : Option PermissionAutomationDecision := none
  userMessageMutation : Option UserMessageMutation := none
  aborted : Bool := false
  deriving DecidableEq

/-- The accumulator of `emit`'s candidate loop.  `asyncInsights` records the
deliveries made through the `onInsight` callback (in source order);
`blockingTrace` is a ghost trace of the blocking plugins awaited, in
execution order. -/
structure EmitAcc where
  insights : List Insight := []
  permissionDecision : Option PermissionAutomationDecision := none
  userMessageMutation : Option UserMessageMutation := none
  aborted : Bool := false
  mutableEvent : PluginEvent
  asyncInsights : List Insight := []
  blockingTrace : List String := []
  ms : ManagerState

/-- The on-success aggregation of a blocking plugin's sanitized result
(`emit` lines 490-522): shallow-merge `eventDataPatch` into the derived
event, append insights, keep the first `permissionDecision`, merge
`userMessageMutation` by shallow overwrite and, for
`user.message.before_send`, write the mutated content/images into the
derived event's data for the remaining plugins. -/
def applyBlockingResult (result : PluginEventResult) (acc : EmitAcc) : EmitAcc :=
  let acc :=
    match result.eventDataPatch, acc.mutableEvent.data with
    | some patch, some dat =>
      { acc with mutableEvent := { acc.mutableEvent with data := some (mergeAssoc dat patch) } }
    | _, _ => acc
  let acc :=
    match result.insights with
    | some l => if l.length != 0 then { acc with insights := acc.insights ++ l } else acc
    | none => acc
  let acc :=
    match acc.permissionDecision, result.permissionDecision with
    | none, some d => { acc with permissionDecision := some d }
    | _, _ => acc
  match result.userMessageMutation with
  | none => acc
  | some m =>
    let acc := { acc with userMessageMutation := some (mergeMutation acc.userMessageMutation m) }
    if acc.mutableEvent.name = "user.message.before_send" then
      match acc.mutableEvent.data with
      | some dat =>
        let dat := match m.content with
          | some c => assocSet dat "content" (DVal.str c)
          | none => dat
        let dat := match m.images with
          | some imgs => assocSet dat "images" (DVal.strList imgs)
          | none => dat
        { acc with mutableEvent := { acc.mutableEvent with data := some dat } }
      | none => acc
    else acc

/-- One iteration of the `for` loop of `PluginManager.emit` (lines 442-523)
over a single candidate.  `state` is the snapshot taken at the top of
`emit`; `event0` the original event (used for error insights).  The returned
flag is `true` when the loop `break`s (an `abort_current_action` failure). -/
def emitStep (state : PersistedState) (event0 : PluginEvent) (now : Nat)
    (plugin : PluginDefinition) (acc : EmitAcc) : EmitAcc × Bool :=
  let enabled := (state.enabled.lookup plugin.id).getD plugin.defaultEnabled
  let acc := { acc with ms := updateHealthFromEnabled plugin.id enabled now acc.ms }
  if !enabled then (acc, false)
  else if !plugin.blocking then
    -- fire and forget: outcome reaches only telemetry and `onInsight`
    let ex := executePlugin plugin acc.mutableEvent (state.config.lookup plugin.id) now acc.ms
    let exec := ex.fst
    let acc := { acc with ms := ex.snd }
    let acc :=
      match exec.error with
      | some err =>
        { acc with
          ms := updateStatsOnRun plugin.id exec.durationMs
            (if err.isTimeout then .timeout else .error) (some err.messageOf) now acc.ms,
          asyncInsights := acc.asyncInsights ++ [toPluginErrorInsight plugin.id event0 err now] }
      | none =>
        let acc := { acc with ms := updateStatsOnRun plugin.id exec.durationMs .success none now acc.ms }
        match exec.result with
        | some r =>
          match r.insights with
          | some l =>
            if l.length != 0 then { acc with asyncInsights := acc.asyncInsights ++ l } else acc
          | none => acc
        | none => acc
    (acc, false)
  else
    let failPolicy := plugin.failPolicy.getD .cont
    let ex := executePlugin plugin acc.mutableEvent (state.config.lookup plugin.id) now acc.ms
    let exec := ex.fst
    let acc := { acc with ms := ex.snd, blockingTrace := acc.blockingTrace ++ [plugin.id] }
    match exec.error with
    | some err =>
      let acc := { acc with
        ms := updateStatsOnRun plugin.id exec.durationMs
          (if err.isTimeout then .timeout else .error) (some err.messageOf) now acc.ms }
      let acc := { acc with insights := acc.insights ++ [toPluginErrorInsight plugin.id event0 err now] }
      if failPolicy = .abortCurrentAction then
        let prev := (acc.ms.stats.lookup plugin.id).getD createEmptyStats
        ({ acc with
            aborted := true,
            ms := { acc.ms with
              stats := assocSet acc.ms.stats plugin.id { prev with aborted := prev.aborted + 1 } } },
          true)
      else (acc, false)
    | none =>
      let acc := { acc with ms := updateStatsOnRun plugin.id exec.durationMs .success none now acc.ms }
      match exec.result with
      | none => (acc, false)
      | some result => (applyBlockingResult result acc, false)

/-- The candidate loop of `emit`: run `emitStep` on each candidate in order,
stopping at a `break`. -/
def emitLoop (state : PersistedState) (event0 : PluginEvent) (now : Nat) :
    List PluginDefinition → EmitAcc → EmitAcc
  | [], acc => acc
  | plugin :: rest, acc =>
    let st := emitStep state event0 now plugin acc
    if st.snd then st.fst else emitLoop state event0 now rest st.fst

/-- The should-run-first relation used by `.sort((a, b) => b.priority - a.priority)`. -/
def prioGe (a b : PluginDefinition) : Prop := b.priority ≤ a.priority

instance : DecidableRel prioGe := fun a b => Int.decLe b.priority a.priority

instance : IsTotal PluginDefinition prioGe := ⟨fun a b => Int.le_total b.priority a.priority⟩

instance : IsTrans PluginDefinition prioGe :=
  ⟨fun _ _ _ h1 h2 => Int.le_trans h2 h1⟩

/-- Candidate selection of `emit`: registered plugins subscribed to the event
name or the wildcard, stably sorted by priority descending.  JS `sort` is
stable, so its result is the unique stable descending order, which
`List.insertionSort prioGe` computes. -/
def candidatesOf (defs : List PluginDefinition) (eventName : String) :
    List PluginDefinition :=
  (defs.filter (fun p => p.events.contains "*" || p.events.contains eventName)).insertionSort prioGe

/-- What `emit` produces, with the observability instrumentation. -/
structure EmitOutput where
  result : EmitResult
  asyncInsights : List Insight
  finalEvent : PluginEvent
  blockingTrace : List String

/-- `PluginManager.emit`. -/
def emit (event : PluginEvent) (now : Nat) (ms : ManagerState) :
    EmitOutput × ManagerState :=
  let state := ms.store
  let candidates := candidatesOf ms.definitions event.name
  let acc := emitLoop state event now candidates { mutableEvent := event, ms := ms }
  ({ result :=
      { insights := acc.insights,
        permissionDecision := acc.permissionDecision,
        userMessageMutation := acc.userMessageMutation,
        aborted := acc.aborted },
     asyncInsights := acc.asyncInsights,
     finalEvent := acc.mutableEvent,
     blockingTrace := acc.blockingTrace },
   acc.ms)

/-- Read the `content` string of an event's data (empty when absent). -/
def getContentOf (ev : PluginEvent) : String :=
  match ev.data with
  | some d =>
    match d.lookup "content" with
    | some (.str s) => s
    | _ => ""
  | none => ""

/-- Calibration plugin "project" (priority 50): appends `" [project]"` to the
message content it observes. -/
def projectPlugin : PluginDefinition :=
  { id := "project",
    events := ["user.message.before_send"],
    priority := 50,
    blocking := true,
    capabilities := some [.messageMutate],
    onEvent := fun ev _ =>
      let m : UserMessageMutation := { content := some (getContentOf ev ++ " [project]") }
      .ok 1 (some { userMessageMutation := some m }) }

/-- Calibration plugin "global" (priority 100): prepends `"[global] "` to the
message content it observes. -/
def globalPlugin : PluginDefinition :=
  { id := "global",
    events := ["user.message.before_send"],
    priority := 100,
    blocking := true,
    capabilities := some [.messageMutate],
    onEvent := fun ev _ =>
      let m : UserMessageMutation := { content := some ("[global] " ++ getContentOf ev) }
      .ok 1 (some { userMessageMutation := some m }) }

/-- Registry with the two calibration plugins, registered "project" first. -/
def msC2 : ManagerState := { definitions := [projectPlugin, globalPlugin] }

def evC2 : PluginEvent :=
  { name := "user.message.before_send",
    data := some [("content", .str "hello")] }


/-- Whether a handler outcome is a failure (throw/rejection or deadline). -/
def isFailB : HandlerOutcome → Bool
  | .ok _ _ => false
  | .throws _ _ => true
  | .deadline => true

/-- A handler that can never fail, on any event and config. -/
def handlerNeverFails (p : PluginDefinition) : Prop :=
  ∀ ev cfg, isFailB (p.onEvent ev cfg) = false

/-- The ids of the plugins a blocking dispatch over `plugins` should await:
those resolved enabled and blocking, in order. -/
def expectedBlk (state : PersistedState) (plugins : List PluginDefinition) : List String :=
  (plugins.filter (fun p => resolvedEnabled state p && p.blocking)).map (fun p => p.id)

/-- Example validator: accepts non-negative numbers only. -/
def validateNonneg : CVal → Except String CVal
  | .num n => if n < 0 then .error "negative" else .ok (.num n)
  | _ => .error "not a number"

/-- A plugin with a config validator and default config `7`. -/
def validatorPlugin : PluginDefinition :=
  { id := "cfg",
    events := ["some.event"],
    priority := 0,
    blocking := true,
    defaultConfig := .num 7,
    validateConfig := some validateNonneg,
    onEvent := fun _ _ => .ok 1 none }

/-- Manager holding `validatorPlugin` with an invalid persisted config. -/
def msV : ManagerState :=
  { definitions := [validatorPlugin],
    store := { config := [("cfg", .str "bad")] } }

/-- A blocking plugin with fail policy `abort_current_action` whose handler
throws. -/
def abortPlugin : PluginDefinition :=
  { id := "guard",
    events := ["*"],
    priority := 10,
    blocking := true,
    failPolicy := some .abortCurrentAction,
    onEvent := fun _ _ => .throws 5 "boom" }

/-- A blocking plugin with default (`continue`) fail policy whose handler
throws. -/
def contFailPlugin : PluginDefinition :=
  { id := "flaky",
    events := ["*"],
    priority := 20,
    blocking := true,
    onEvent := fun _ _ => .throws 2 "oops" }

/-- A harmless low-priority blocking plugin. -/
def tailPlugin : PluginDefinition :=
  { id := "tail",
    events := ["*"],
    priority := 1,
    blocking := true,
    onEvent := fun _ _ => .ok 1 none }

def evAny : PluginEvent := { name := "result.received" }

/-- The fresh accumulator `emit` starts its loop with. -/
def accOf (ev : PluginEvent) (ms : ManagerState) : EmitAcc :=
  { mutableEvent := ev, ms := ms }

/-- A degraded health record as the telemetry tracker writes it. -/
def degHealth : PluginHealth :=
  { status := .degraded, reason := some "High recent error rate", updatedAt := 5 }

/-- Manager with a plugin whose health is currently degraded. -/
def msC10 : ManagerState :=
  { definitions := [tailPlugin],
    health := [("tail", degHealth)] }

/-- An insight with a toast request, for exercising flag sanitization. -/
def insC4 : Insight :=
  { id := "i1", plugin_id := "project", title := "t", message := "m",
    level := .info, timestamp := 0, toast := true }

/-- A handler result exercising several capability-gated fields. -/
def resC4 : PluginEventResult :=
  { insights := some [insC4],
    permissionDecision := some { behavior := .allow },
    userMessageMutation := some { content := some "x" } }

/-- A grants record with every capability revoked/absent. -/
def noGrants : PluginCapability → Bool := fun _ => false

/-- The durations 10, 20, ..., 1000. -/
def durs100 : List Nat := (List.range 100).map (fun i => 10 * (i + 1))

/-- Stats state after recording the 100 durations 10..1000. -/
def msDurs : ManagerState :=
  durs100.foldl (fun ms d => updateStatsOnRun "p" d .success none 0 ms) {}

/-- Manager with a two-sample duration window for plugin "p". -/
def msW7 : ManagerState := { durationWindows := [("p", [5, 1])] }

theorem lookup_assocSet_self {α : Type} (l : List (String × α)) (k : String) (v : α) :
    (assocSet l k v).lookup k = some v := by
  induction l with
  | nil => simp [assocSet, List.lookup_cons]
  | cons h t ih =>
    obtain ⟨a, w⟩ := h
    by_cases hk : a = k
    · subst hk
      simp [assocSet, List.lookup_cons]
    · have hk' : (a == k) = false := by simpa using hk
      have hk'' : (k == a) = false := by simpa using Ne.symm hk
      simp [assocSet, hk', List.lookup_cons, hk'', ih]

theorem lookup_assocSet_ne {α : Type} (l : List (String × α)) (k a : String) (v : α)
    (h : a ≠ k) : (assocSet l k v).lookup a = l.lookup a := by
  have hak : (a == k) = false := by simpa using h
  induction l with
  | nil => simp [assocSet, List.lookup_cons, hak]
  | cons hd t ih =>
    obtain ⟨b, w⟩ := hd
    by_cases hb : b = k
    · subst hb
      have hab : (a == b) = false := hak
      simp [assocSet, List.lookup_cons, hab]
    · have hb' : (b == k) = false := by simpa using hb
      by_cases hab : a = b
      · subst hab
        simp [assocSet, hb', List.lookup_cons]
      · have hab' : (a == b) = false := by simpa using hab
        simp [assocSet, hb', List.lookup_cons, hab', ih]

theorem resolveConfig_fst (p : PluginDefinition) (sc : Option CVal) (b : Bool)
    (ms : ManagerState) : (resolveConfig p sc b ms).fst = resolvedConfigValue p sc := by
  cases hV : p.validateConfig with
  | none => simp [resolveConfig, resolvedConfigValue, hV]
  | some V =>
    cases hr : V (sc.getD p.defaultConfig) with
    | ok c => simp [resolveConfig, resolvedConfigValue, hV, hr]
    | error e => simp [resolveConfig, resolvedConfigValue, hV, hr]

theorem resolveConfig_preserves (p : PluginDefinition) (sc : Option CVal) (b : Bool)
    (ms : ManagerState) :
    (resolveConfig p sc b ms).snd.store.grants = ms.store.grants ∧
    (resolveConfig p sc b ms).snd.store.enabled = ms.store.enabled ∧
    (resolveConfig p sc b ms).snd.health = ms.health ∧
    (resolveConfig p sc b ms).snd.stats = ms.stats ∧
    (resolveConfig p sc b ms).snd.durationWindows = ms.durationWindows ∧
    (resolveConfig p sc b ms).snd.definitions = ms.definitions := by
  cases hV : p.validateConfig with
  | none => simp [resolveConfig, hV]
  | some V =>
    cases hr : V (sc.getD p.defaultConfig) with
    | ok c => simp [resolveConfig, hV, hr]
    | error e =>
      simp only [resolveConfig, hV, hr]
      split <;> split <;> simp_all

theorem resolveConfig_heal_store (p : PluginDefinition) (V : CVal → Except String CVal)
    (v : CVal) (msg : String) (ms : ManagerState)
    (hV : p.validateConfig = some V) (hrej : V v = .error msg) :
    (resolveConfig p (some v) true ms).snd.store.config =
      assocSet ms.store.config p.id p.defaultConfig := by
  simp only [resolveConfig, hV, Option.getD_some, hrej]
  split
  · split <;> rfl
  · simp_all

theorem resolveConfig_none_store (p : PluginDefinition) (b : Bool) (ms : ManagerState) :
    (resolveConfig p none b ms).snd.store = ms.store := by
  cases hV : p.validateConfig with
  | none => simp [resolveConfig, hV]
  | some V =>
    cases hr : V p.defaultConfig with
    | ok c => simp [resolveConfig, hV, hr]
    | error e =>
      simp only [resolveConfig, hV, Option.getD_none, hr, Option.isSome_none,
        Bool.and_false, Bool.false_eq_true, if_false]
      split <;> rfl

theorem resolveConfig_config_lookup_ne (p : PluginDefinition) (sc : Option CVal) (b : Bool)
    (ms : ManagerState) (x : String) (hx : x ≠ p.id) :
    (resolveConfig p sc b ms).snd.store.config.lookup x = ms.store.config.lookup x := by
  cases hV : p.validateConfig with
  | none => simp [resolveConfig, hV]
  | some V =>
    cases hr : V (sc.getD p.defaultConfig) with
    | ok c => simp [resolveConfig, hV, hr]
    | error e =>
      simp only [resolveConfig, hV, hr]
      split
      · split <;> simp [lookup_assocSet_ne _ _ _ _ hx]
      · split <;> rfl

theorem updateHealthFromEnabled_preserves (id : String) (e : Bool) (now : Nat)
    (ms : ManagerState) :
    (updateHealthFromEnabled id e now ms).store = ms.store ∧
    (updateHealthFromEnabled id e now ms).stats = ms.stats ∧
    (updateHealthFromEnabled id e now ms).durationWindows = ms.durationWindows ∧
    (updateHealthFromEnabled id e now ms).definitions = ms.definitions ∧
    (updateHealthFromEnabled id e now ms).warnedInvalidConfig = ms.warnedInvalidConfig := by
  unfold updateHealthFromEnabled
  split
  · simp
  · split
    · simp
    · split <;> simp

theorem updateHealthFromEnabled_lookup_ne (qid id : String) (e : Bool) (now : Nat)
    (ms : ManagerState) (hne : qid ≠ id) :
    (updateHealthFromEnabled qid e now ms).health.lookup id = ms.health.lookup id := by
  unfold updateHealthFromEnabled
  split
  · simp [lookup_assocSet_ne _ _ _ _ (Ne.symm hne)]
  · split
    · simp [lookup_assocSet_ne _ _ _ _ (Ne.symm hne)]
    · split
      · simp [lookup_assocSet_ne _ _ _ _ (Ne.symm hne)]
      · rfl

/-- C6: calling `updateConfig` with a value the plugin's validator rejects
returns the distinguished configuration-validation error carrying that
plugin's id, and leaves the manager state — in particular the previously
persisted config for the plugin — unchanged. -/
theorem updateConfig_validation_error (id : String) (raw : CVal) (now : Nat)
    (ms : ManagerState) (p : PluginDefinition) (V : CVal → Except String CVal) (msg : String)
    (hfind : ms.definitions.find? (fun q => q.id == id) = some p)
    (hV : p.validateConfig = some V)
    (hrej : V raw = .error msg) :
    (updateConfig id raw now ms).fst =
      .error { pluginId := id,
               message := "Invalid config for plugin " ++ id ++ ": " ++ msg } ∧
    (updateConfig id raw now ms).snd = ms ∧
    (updateConfig id raw now ms).snd.store.config.lookup id = ms.store.config.lookup id := by
  unfold updateConfig
  rw [hfind]
  simp [hV, hrej]

theorem updateConfig_validation_error_witness :
    msV.definitions.find? (fun q => q.id == "cfg") = some validatorPlugin ∧
    validatorPlugin.validateConfig = some validateNonneg ∧
    validateNonneg (.str "bad") = .error "not a number" ∧
    ((updateConfig "cfg" (.str "bad") 0 msV).fst =
        .error { pluginId := "cfg",
                 message := "Invalid config for plugin " ++ "cfg" ++ ": " ++ "not a number" } ∧
      (updateConfig "cfg" (.str "bad") 0 msV).snd = msV ∧
      (updateConfig "cfg" (.str "bad") 0 msV).snd.store.config.lookup "cfg" =
        msV.store.config.lookup "cfg") :=
  ⟨rfl, rfl, rfl,
    updateConfig_validation_error "cfg" (.str "bad") 0 msV validatorPlugin validateNonneg
      "not a number" rfl rfl rfl⟩

theorem executePlugin_configUsed (p : PluginDefinition) (ev : PluginEvent)
    (sc : Option CVal) (now : Nat) (ms : ManagerState) :
    (executePlugin p ev sc now ms).fst.configUsed = resolvedConfigValue p sc := by
  simp only [executePlugin]
  split <;> simp [resolveConfig_fst]

theorem listStep_fst (state : PersistedState) (now : Nat)
    (acc : List PluginRuntimeInfo × ManagerState) (q : PluginDefinition) :
    ∃ row, (listStep state now acc q).fst = acc.fst ++ [row] ∧
      row.id = q.id ∧ row.config = resolvedConfigValue q (state.config.lookup q.id) := by
  refine ⟨_, rfl, rfl, ?_⟩
  exact resolveConfig_fst q (state.config.lookup q.id) true acc.snd

theorem foldl_listStep_row_config (state : PersistedState) (now : Nat) :
    ∀ (defs : List PluginDefinition) (acc : List PluginRuntimeInfo × ManagerState)
      (row : PluginRuntimeInfo), row ∈ (defs.foldl (listStep state now) acc).fst →
      row ∈ acc.fst ∨
        ∃ q ∈ defs, row.id = q.id ∧ row.config = resolvedConfigValue q (state.config.lookup q.id)
  | [], acc, row, hmem => .inl hmem
  | q :: t, acc, row, hmem => by
    have step := listStep_fst state now acc q
    obtain ⟨rowq, heq, hid, hcfg⟩ := step
    have ih := foldl_listStep_row_config state now t (listStep state now acc q) row
      (by simpa using hmem)
    rcases ih with hacc | ⟨q', hq', hid', hcfg'⟩
    · rw [heq] at hacc
      rcases List.mem_append.mp hacc with h | h
      · exact .inl h
      · right
        refine ⟨q, List.mem_cons_self q t, ?_, ?_⟩
        · rw [List.mem_singleton.mp h]; exact hid
        · rw [List.mem_singleton.mp h]; exact hcfg
    · exact .inr ⟨q', List.mem_cons_of_mem q hq', hid', hcfg'⟩

theorem listStep_snd_config_lookup_ne (state : PersistedState) (now : Nat)
    (acc : List PluginRuntimeInfo × ManagerState) (q : PluginDefinition) (x : String)
    (hx : x ≠ q.id) :
    (listStep state now acc q).snd.store.config.lookup x = acc.snd.store.config.lookup x := by
  show (updateHealthFromEnabled q.id _ now
    (resolveConfig q (state.config.lookup q.id) true acc.snd).snd).store.config.lookup x = _
  rw [(updateHealthFromEnabled_preserves _ _ _ _).1]
  exact resolveConfig_config_lookup_ne q _ true acc.snd x hx

theorem listStep_snd_config_lookup_heal (state : PersistedState) (now : Nat)
    (acc : List PluginRuntimeInfo × ManagerState) (q : PluginDefinition)
    (V : CVal → Except String CVal) (v : CVal) (msg : String)
    (hV : q.validateConfig = some V) (hrej : V v = .error msg)
    (hstate : state.config.lookup q.id = some v) :
    (listStep state now acc q).snd.store.config.lookup q.id = some q.defaultConfig := by
  show (updateHealthFromEnabled q.id _ now
    (resolveConfig q (state.config.lookup q.id) true acc.snd).snd).store.config.lookup q.id = _
  rw [(updateHealthFromEnabled_preserves _ _ _ _).1, hstate,
    resolveConfig_heal_store q V v msg acc.snd hV hrej]
  exact lookup_assocSet_self _ _ _

theorem foldl_listStep_heal (state : PersistedState) (now : Nat) (p : PluginDefinition)
    (V : CVal → Except String CVal) (v : CVal) (msg : String)
    (hV : p.validateConfig = some V) (hrej : V v = .error msg)
    (hstate : state.config.lookup p.id = some v) :
    ∀ (defs : List PluginDefinition) (acc : List PluginRuntimeInfo × ManagerState),
      (∀ q ∈ defs, q.id = p.id → q = p) →
      (p ∈ defs ∨ acc.snd.store.config.lookup p.id = some p.defaultConfig) →
      (defs.foldl (listStep state now) acc).snd.store.config.lookup p.id =
        some p.defaultConfig
  | [], acc, _, hcase => by
    rcases hcase with h | h
    · exact absurd h (List.not_mem_nil p)
    · simpa using h
  | q :: t, acc, huniq, hcase => by
    have huniq' : ∀ r ∈ t, r.id = p.id → r = p :=
      fun r hr => huniq r (List.mem_cons_of_mem q hr)
    refine foldl_listStep_heal state now p V v msg hV hrej hstate t
      (listStep state now acc q) huniq' ?_
    rcases hcase with hmem | hdone
    · rcases List.mem_cons.mp hmem with heq | hmem'
      · right
        subst heq
        exact listStep_snd_config_lookup_heal state now acc p V v msg hV hrej hstate
      · exact .inl hmem'
    · by_cases hq : q.id = p.id
      · have hqp : q = p := huniq q (List.mem_cons_self q t) hq
        subst hqp
        right
        exact listStep_snd_config_lookup_heal state now acc q V v msg hV hrej hstate
      · right
        rw [listStep_snd_config_lookup_ne state now acc q p.id (fun h => hq h.symm)]
        exact hdone

/-- C5: a persisted config the validator rejects resolves to the declared
default (never the invalid value) with no exception raised (the model is
total), is self-healed into the persisted store — but only when a persisted
value was present — and both the `list()` snapshot and the config handed to
the handler by the execution engine (used by `emit`) show the default. -/
theorem invalid_config_self_heal (p : PluginDefinition) (V : CVal → Except String CVal)
    (v : CVal) (msg : String) (now : Nat) (ms : ManagerState) (ev : PluginEvent)
    (hV : p.validateConfig = some V) (hrej : V v = .error msg)
    (hmem : p ∈ ms.definitions)
    (huniq : ∀ q ∈ ms.definitions, q.id = p.id → q = p)
    (hstore : ms.store.config.lookup p.id = some v) :
    resolvedConfigValue p (some v) = p.defaultConfig ∧
    (resolveConfig p (some v) true ms).fst = p.defaultConfig ∧
    (resolveConfig p (some v) true ms).snd.store.config.lookup p.id = some p.defaultConfig ∧
    (∀ ms' : ManagerState, (resolveConfig p none true ms').snd.store = ms'.store) ∧
    (∀ row ∈ (list now ms).fst, row.id = p.id → row.config = p.defaultConfig) ∧
    (list now ms).snd.store.config.lookup p.id = some p.defaultConfig ∧
    (executePlugin p ev (some v) now ms).fst.configUsed = p.defaultConfig := by
  have hval : resolvedConfigValue p (some v) = p.defaultConfig := by
    simp [resolvedConfigValue, hV, hrej]
  refine ⟨hval, ?_, ?_, ?_, ?_, ?_, ?_⟩
  · rw [resolveConfig_fst]; exact hval
  · rw [resolveConfig_heal_store p V v msg ms hV hrej]
    exact lookup_assocSet_self _ _ _
  · exact fun ms' => resolveConfig_none_store p true ms'
  · intro row hrow hid
    rcases foldl_listStep_row_config ms.store now ms.definitions ([], ms) row hrow with
      hnil | ⟨q, hq, hid', hcfg⟩
    · exact absurd hnil (List.not_mem_nil row)
    · have hqp : q = p := huniq q hq (hid' ▸ hid)
      subst hqp
      rw [hcfg, hstore]
      exact hval
  · exact foldl_listStep_heal ms.store now p V v msg hV hrej hstore ms.definitions
      ([], ms) huniq (.inl hmem)
  · rw [executePlugin_configUsed]; exact hval

theorem invalid_config_self_heal_witness :
    validatorPlugin.validateConfig = some validateNonneg ∧
    validateNonneg (.str "bad") = .error "not a number" ∧
    validatorPlugin ∈ msV.definitions ∧
    msV.store.config.lookup validatorPlugin.id = some (.str "bad") ∧
    (resolvedConfigValue validatorPlugin (some (.str "bad")) = validatorPlugin.defaultConfig ∧
     (resolveConfig validatorPlugin (some (.str "bad")) true msV).fst =
        validatorPlugin.defaultConfig ∧
     (resolveConfig validatorPlugin (some (.str "bad")) true msV).snd.store.config.lookup
        validatorPlugin.id = some validatorPlugin.defaultConfig ∧
     (∀ ms' : ManagerState,
        (resolveConfig validatorPlugin none true ms').snd.store = ms'.store) ∧
     (∀ row ∈ (list 0 msV).fst, row.id = validatorPlugin.id →
        row.config = validatorPlugin.defaultConfig) ∧
     (list 0 msV).snd.store.config.lookup validatorPlugin.id =
        some validatorPlugin.defaultConfig ∧
     (executePlugin validatorPlugin evAny (some (.str "bad")) 0 msV).fst.configUsed =
        validatorPlugin.defaultConfig) :=
  ⟨rfl, rfl, List.mem_singleton.mpr rfl, rfl,
    invalid_config_self_heal validatorPlugin validateNonneg (.str "bad") "not a number" 0 msV
      evAny rfl rfl (List.mem_singleton.mpr rfl)
      (fun q hq _ => List.mem_singleton.mp hq) rfl⟩


theorem updateStatsOnRun_lookups (id : String) (d : Nat) (outcome : RunOutcome)
    (err : Option String) (now : Nat) (ms : ManagerState) :
    (updateStatsOnRun id d outcome err now ms).stats.lookup id =
      some (nextStats ((ms.stats.lookup id).getD createEmptyStats)
        ((ms.durationWindows.lookup id).getD []) d outcome err now).fst ∧
    (updateStatsOnRun id d outcome err now ms).durationWindows.lookup id =
      some (nextStats ((ms.stats.lookup id).getD createEmptyStats)
        ((ms.durationWindows.lookup id).getD []) d outcome err now).snd ∧
    (updateStatsOnRun id d outcome err now ms).health.lookup id =
      some (healthOfStats (nextStats ((ms.stats.lookup id).getD createEmptyStats)
        ((ms.durationWindows.lookup id).getD []) d outcome err now).fst now) := by
  refine ⟨?_, ?_, ?_⟩ <;>
    simp only [updateStatsOnRun] <;>
    exact lookup_assocSet_self _ _ _

theorem healthOfStats_degraded_iff (next : PluginStats) (now : Nat) :
    ((healthOfStats next now).status = .degraded ↔
      3 ≤ next.errors + next.timeouts ∧ 0 < next.invocations) ∧
    ((healthOfStats next now).status = .degraded ∨
      (healthOfStats next now).status = .healthy) := by
  simp only [healthOfStats]
  by_cases hd : 3 ≤ next.errors + next.timeouts ∧ 0 < next.invocations
  · have : (next.errors + next.timeouts ≥ 3 && next.invocations > 0) = true := by
      simp [hd.1, hd.2]
    simp [this, hd]
  · have : (next.errors + next.timeouts ≥ 3 && next.invocations > 0) = false := by
      rcases Decidable.not_and_iff_or_not.mp hd with h | h <;> simp [h]
    simp [this, hd]

/-- C8: after every recorded invocation the telemetry recorder sets health to
`degraded` exactly when the recorded `errors + timeouts ≥ 3` with
`invocations > 0`, and to `healthy` otherwise (never `disabled`); the
`disabled` status is written by the orchestrator's enabled-flag refresh
(`updateHealthFromEnabled` with a false persisted flag), not by the
recorder. -/
theorem health_degraded_rule (id : String) (d : Nat) (outcome : RunOutcome)
    (err : Option String) (now : Nat) (ms : ManagerState) :
    (∃ h s, (updateStatsOnRun id d outcome err now ms).health.lookup id = some h ∧
      (updateStatsOnRun id d outcome err now ms).stats.lookup id = some s ∧
      (h.status = .degraded ↔ 3 ≤ s.errors + s.timeouts ∧ 0 < s.invocations) ∧
      (h.status = .degraded ∨ h.status = .healthy)) ∧
    (∀ ms' : ManagerState, ∃ h',
      (updateHealthFromEnabled id false now ms').health.lookup id = some h' ∧
      h'.status = .disabled ∧ h'.reason = some "Plugin disabled") := by
  constructor
  · obtain ⟨hs, _, hh⟩ := updateStatsOnRun_lookups id d outcome err now ms
    refine ⟨_, _, hh, hs, ?_, ?_⟩
    · exact (healthOfStats_degraded_iff _ now).1
    · exact (healthOfStats_degraded_iff _ now).2
  · intro ms'
    have hlk : (updateHealthFromEnabled id false now ms').health.lookup id =
        some { status := .disabled, reason := some "Plugin disabled", updatedAt := now } := by
      simp only [updateHealthFromEnabled, Bool.not_false, if_true]
      exact lookup_assocSet_self _ _ _
    exact ⟨_, hlk, rfl, rfl⟩

theorem updateHealthFromEnabled_true_not_disabled (id : String) (now : Nat)
    (ms : ManagerState) (h : PluginHealth)
    (hlk : ms.health.lookup id = some h) (hnd : h.status ≠ .disabled) :
    updateHealthFromEnabled id true now ms = ms := by
  simp only [updateHealthFromEnabled, Bool.not_true, Bool.false_eq_true, if_false, hlk]
  simp [hnd]

theorem foldl_listStep_health_preserved (state : PersistedState) (now : Nat)
    (id : String) (h : PluginHealth) (hdeg : h.status = .degraded) :
    ∀ (defs : List PluginDefinition) (acc : List PluginRuntimeInfo × ManagerState),
      (∀ q ∈ defs, q.id = id → (state.enabled.lookup q.id).getD q.defaultEnabled = true) →
      acc.snd.health.lookup id = some h →
      (defs.foldl (listStep state now) acc).snd.health.lookup id = some h
  | [], _, _, hacc => hacc
  | q :: t, acc, hen, hacc => by
    refine foldl_listStep_health_preserved state now id h hdeg t (listStep state now acc q)
      (fun r hr => hen r (List.mem_cons_of_mem q hr)) ?_
    have hrc : (resolveConfig q (state.config.lookup q.id) true acc.snd).snd.health.lookup id
        = some h := by
      rw [(resolveConfig_preserves q _ true acc.snd).2.2.1]
      exact hacc
    show (updateHealthFromEnabled q.id ((state.enabled.lookup q.id).getD q.defaultEnabled)
      now (resolveConfig q (state.config.lookup q.id) true acc.snd).snd).health.lookup id
      = some h
    by_cases hq : q.id = id
    · rw [hen q (List.mem_cons_self q t) hq]
      rw [hq] at hrc ⊢
      rw [updateHealthFromEnabled_true_not_disabled id now _ h hrc (by rw [hdeg]; intro hc; cases hc)]
      exact hrc
    · rw [updateHealthFromEnabled_lookup_ne q.id id _ now _ hq]
      exact hrc

/-- C10: refreshing health from an enabled flag of `true` never erases a
`degraded` status — it writes `healthy` only when no record exists or the
record reads `disabled` — so a plugin marked degraded by telemetry stays
degraded through `list` and `setEnabled(true)` (and through `emit`'s
candidate refresh, which calls the same function) until its stats change. -/
theorem health_refresh_preserves_degraded (id : String) (now : Nat) (ms : ManagerState)
    (h : PluginHealth) (hdeg : h.status = .degraded) (hlk : ms.health.lookup id = some h) :
    updateHealthFromEnabled id true now ms = ms ∧
    (∀ ms' : ManagerState, ms'.health.lookup id = none →
      (updateHealthFromEnabled id true now ms').health.lookup id =
        some { status := .healthy, updatedAt := now }) ∧
    (∀ (ms' : ManagerState) (h' : PluginHealth), ms'.health.lookup id = some h' →
      h'.status = .disabled →
      (updateHealthFromEnabled id true now ms').health.lookup id =
        some { status := .healthy, updatedAt := now }) ∧
    (∀ (ms' : ManagerState) (h' : PluginHealth), ms'.health.lookup id = some h' →
      h'.status ≠ .disabled → updateHealthFromEnabled id true now ms' = ms') ∧
    ((∀ q ∈ ms.definitions, q.id = id → resolvedEnabled ms.store q = true) →
      (list now ms).snd.health.lookup id = some h) ∧
    (setEnabled id true now ms).snd.health.lookup id = some h := by
  have hnd : h.status ≠ .disabled := by rw [hdeg]; intro hc; cases hc
  refine ⟨updateHealthFromEnabled_true_not_disabled id now ms h hlk hnd, ?_, ?_, ?_, ?_, ?_⟩
  · intro ms' hnone
    simp only [updateHealthFromEnabled, Bool.not_true, Bool.false_eq_true, if_false, hnone]
    exact lookup_assocSet_self _ _ _
  · intro ms' h' hlk' hdis
    simp only [updateHealthFromEnabled, Bool.not_true, Bool.false_eq_true, if_false, hlk']
    simp only [hdis, if_true]
    exact lookup_assocSet_self _ _ _
  · intro ms' h' hlk' hnd'
    exact updateHealthFromEnabled_true_not_disabled id now ms' h' hlk' hnd'
  · intro hen
    exact foldl_listStep_health_preserved ms.store now id h hdeg ms.definitions ([], ms)
      (fun q hq hqid => hen q hq hqid) hlk
  · unfold setEnabled
    cases hf : ms.definitions.find? (fun p => p.id == id) with
    | none => simpa [hf] using hlk
    | some p =>
      simp only [hf]
      set ms1 : ManagerState :=
        { ms with store := { ms.store with enabled := assocSet ms.store.enabled id true } }
        with hms1
      have hlk1 : ms1.health.lookup id = some h := hlk
      have hupd : updateHealthFromEnabled id true now ms1 = ms1 :=
        updateHealthFromEnabled_true_not_disabled id now ms1 h hlk1 hnd
      rw [hupd]
      show (list now ms1).snd.health.lookup id = some h
      refine foldl_listStep_health_preserved ms1.store now id h hdeg ms1.definitions
        ([], ms1) ?_ hlk1
      intro q _ hqid
      rw [hqid]
      simp [hms1, lookup_assocSet_self]

theorem health_refresh_preserves_degraded_witness :
    degHealth.status = .degraded ∧
    msC10.health.lookup "tail" = some degHealth ∧
    (updateHealthFromEnabled "tail" true 7 msC10 = msC10 ∧
     (∀ ms' : ManagerState, ms'.health.lookup "tail" = none →
        (updateHealthFromEnabled "tail" true 7 ms').health.lookup "tail" =
          some { status := .healthy, updatedAt := 7 }) ∧
     (∀ (ms' : ManagerState) (h' : PluginHealth), ms'.health.lookup "tail" = some h' →
        h'.status = .disabled →
        (updateHealthFromEnabled "tail" true 7 ms').health.lookup "tail" =
          some { status := .healthy, updatedAt := 7 }) ∧
     (∀ (ms' : ManagerState) (h' : PluginHealth), ms'.health.lookup "tail" = some h' →
        h'.status ≠ .disabled → updateHealthFromEnabled "tail" true 7 ms' = ms') ∧
     ((∀ q ∈ msC10.definitions, q.id = "tail" → resolvedEnabled msC10.store q = true) →
        (list 7 msC10).snd.health.lookup "tail" = some degHealth) ∧
     (setEnabled "tail" true 7 msC10).snd.health.lookup "tail" = some degHealth) :=
  ⟨rfl, rfl, health_refresh_preserves_degraded "tail" 7 msC10 degHealth rfl rfl⟩

theorem sanitizeInsights_fst (grants : PluginCapability → Bool) :
    ∀ (l : List Insight) (b0 : List PluginCapability),
      (sanitizeInsights grants l b0).fst = l.map (clearFlags grants)
  | [], _ => rfl
  | i :: rest, b0 => by
    obtain ⟨iid, ipl, iti, ime, ilv, its, ien, isi, ito, iso, ide⟩ := i
    cases ito <;> cases hgt : grants .insightToast <;>
      cases iso <;> cases hgs : grants .insightSound <;>
        cases ide <;> cases hgd : grants .insightDesktop <;>
          simp [sanitizeInsights, clearFlags, hgt, hgs, hgd,
            sanitizeInsights_fst grants rest]

theorem pushIfAbsent_nodup (b : List PluginCapability) (c : PluginCapability)
    (hb : b.Nodup) : (pushIfAbsent b c).Nodup := by
  unfold pushIfAbsent
  split
  · exact hb
  · rename_i hc
    have hmem : c ∉ b := fun hm =>
      hc (List.contains_iff_exists_mem_beq.mpr ⟨c, hm, beq_self_eq_true c⟩)
    simp [List.nodup_append, hb, hmem]

theorem sanitizeInsights_snd_nodup (grants : PluginCapability → Bool) :
    ∀ (l : List Insight) (b0 : List PluginCapability),
      b0.Nodup → (sanitizeInsights grants l b0).snd.Nodup
  | [], _, hb => hb
  | i :: rest, b0, hb => by
    simp only [sanitizeInsights]
    apply sanitizeInsights_snd_nodup grants rest
    split
    · split
      · split
        · exact pushIfAbsent_nodup _ _ (pushIfAbsent_nodup _ _ (pushIfAbsent_nodup _ _ hb))
        · exact pushIfAbsent_nodup _ _ (pushIfAbsent_nodup _ _ hb)
      · split
        · exact pushIfAbsent_nodup _ _ (pushIfAbsent_nodup _ _ hb)
        · exact pushIfAbsent_nodup _ _ hb
    · split
      · split
        · exact pushIfAbsent_nodup _ _ (pushIfAbsent_nodup _ _ hb)
        · exact pushIfAbsent_nodup _ _ hb
      · split
        · exact pushIfAbsent_nodup _ _ hb
        · exact hb

theorem sanitizeInsightsPass_some (grants : PluginCapability → Bool) (l : List Insight)
    (b : List PluginCapability) :
    sanitizeInsightsPass grants (some l) b =
      (some (l.map (clearFlags grants)), (sanitizeInsights grants l b).snd) := by
  unfold sanitizeInsightsPass
  by_cases hl : l = []
  · subst hl
    simp [sanitizeInsights]
  · have hlen : (l.length != 0) = true := by
      rw [bne_iff_ne]
      exact fun h => hl (List.eq_nil_of_length_eq_zero h)
    simp [hlen, sanitizeInsights_fst]

theorem blockedFields_nodup (result : PluginEventResult)
    (grants : PluginCapability → Bool) : (blockedFields result grants).Nodup := by
  unfold blockedFields
  split_ifs <;> decide

theorem sanitize_snd (plugin : PluginDefinition) (result : PluginEventResult)
    (grants : PluginCapability → Bool) (now : Nat) :
    (sanitizeResultForCapabilities plugin result grants now).snd =
      (sanitizeInsightsPass grants result.insights (blockedFields result grants)).snd := by
  unfold sanitizeResultForCapabilities
  by_cases hb :
      0 < (sanitizeInsightsPass grants result.insights (blockedFields result grants)).snd.length
  · simp [hb]
  · simp [hb]

theorem sanitize_snd_nodup (plugin : PluginDefinition) (result : PluginEventResult)
    (grants : PluginCapability → Bool) (now : Nat) :
    (sanitizeResultForCapabilities plugin result grants now).snd.Nodup := by
  rw [sanitize_snd]
  cases hins : result.insights with
  | none => simpa [sanitizeInsightsPass] using blockedFields_nodup result grants
  | some l =>
    rw [sanitizeInsightsPass_some]
    exact sanitizeInsights_snd_nodup grants l _ (blockedFields_nodup result grants)

theorem sanitize_fields (plugin : PluginDefinition) (result : PluginEventResult)
    (grants : PluginCapability → Bool) (now : Nat) :
    (sanitizeResultForCapabilities plugin result grants now).fst.permissionDecision =
      (if grants .permissionAutoDecide then result.permissionDecision else none) ∧
    (sanitizeResultForCapabilities plugin result grants now).fst.userMessageMutation =
      (if grants .messageMutate then result.userMessageMutation else none) ∧
    (sanitizeResultForCapabilities plugin result grants now).fst.eventDataPatch =
      (if grants .eventPatch then result.eventDataPatch else none) := by
  unfold sanitizeResultForCapabilities
  by_cases hb :
      0 < (sanitizeInsightsPass grants result.insights (blockedFields result grants)).snd.length <;>
    refine ⟨?_, ?_, ?_⟩ <;>
      [cases hg : grants .permissionAutoDecide;
       cases hg : grants .messageMutate;
       cases hg : grants .eventPatch;
       cases hg : grants .permissionAutoDecide;
       cases hg : grants .messageMutate;
       cases hg : grants .eventPatch] <;>
      [cases hr : result.permissionDecision;
       cases hr : result.permissionDecision;
       cases hr : result.userMessageMutation;
       cases hr : result.userMessageMutation;
       cases hr : result.eventDataPatch;
       cases hr : result.eventDataPatch;
       cases hr : result.permissionDecision;
       cases hr : result.permissionDecision;
       cases hr : result.userMessageMutation;
       cases hr : result.userMessageMutation;
       cases hr : result.eventDataPatch;
       cases hr : result.eventDataPatch] <;>
    simp [hb, hg, hr]

theorem sanitize_insights_shape (plugin : PluginDefinition) (result : PluginEventResult)
    (grants : PluginCapability → Bool) (now : Nat) :
    (∀ l, result.insights = some l →
      (sanitizeResultForCapabilities plugin result grants now).fst.insights =
        some (l.map (clearFlags grants) ++
          (if (sanitizeResultForCapabilities plugin result grants now).snd.isEmpty then []
           else [capBlockedInsight plugin.id now
             (sanitizeResultForCapabilities plugin result grants now).snd]))) ∧
    (result.insights = none →
      (sanitizeResultForCapabilities plugin result grants now).fst.insights =
        (if (sanitizeResultForCapabilities plugin result grants now).snd.isEmpty then none
         else some [capBlockedInsight plugin.id now
           (sanitizeResultForCapabilities plugin result grants now).snd])) := by
  have hsnd := sanitize_snd plugin result grants now
  constructor
  · intro l hins
    rw [hsnd, hins, sanitizeInsightsPass_some]
    unfold sanitizeResultForCapabilities
    rw [hins, sanitizeInsightsPass_some]
    by_cases hnil : (sanitizeInsights grants l (blockedFields result grants)).snd = []
    · simp [hnil]
    · have hb : 0 < (sanitizeInsights grants l (blockedFields result grants)).snd.length :=
        List.length_pos.mpr hnil
      simp [hnil, hb]
  · intro hins
    rw [hsnd, hins]
    unfold sanitizeResultForCapabilities
    rw [hins]
    by_cases hnil : blockedFields result grants = []
    · simp [sanitizeInsightsPass, hnil]
    · have hb : 0 < (blockedFields result grants).length := List.length_pos.mpr hnil
      simp [sanitizeInsightsPass, hnil, hb]

/-- C4: a requested capability is granted unless the persisted grants map
explicitly stores `false` for it (grant-by-default, revoke-by-exception);
sanitization strips `permissionDecision` / `userMessageMutation` /
`eventDataPatch` when their capability is not granted, clears each insight's
`toast`/`sound`/`desktop` flag individually when the matching insight
capability is not granted, and, whenever at least one capability was
blocked, appends exactly one synthetic warning insight titled
"Capability blocked" whose message lists the blocked capability names,
deduplicated (the blocked list is built by first occurrence and is
duplicate-free). -/
theorem capability_default_and_sanitization (plugin : PluginDefinition)
    (state : PersistedState) (cap : PluginCapability) (result : PluginEventResult)
    (grants : PluginCapability → Bool) (now : Nat)
    (hreq : cap ∈ getRequestedCapabilities plugin) :
    (resolveCapabilityGrants plugin state cap = true ↔
      ¬ grantLookup state plugin.id cap = some false) ∧
    (sanitizeResultForCapabilities plugin result grants now).fst.permissionDecision =
      (if grants .permissionAutoDecide then result.permissionDecision else none) ∧
    (sanitizeResultForCapabilities plugin result grants now).fst.userMessageMutation =
      (if grants .messageMutate then result.userMessageMutation else none) ∧
    (sanitizeResultForCapabilities plugin result grants now).fst.eventDataPatch =
      (if grants .eventPatch then result.eventDataPatch else none) ∧
    (∀ l, result.insights = some l →
      (sanitizeResultForCapabilities plugin result grants now).fst.insights =
        some (l.map (clearFlags grants) ++
          (if (sanitizeResultForCapabilities plugin result grants now).snd.isEmpty then []
           else [capBlockedInsight plugin.id now
             (sanitizeResultForCapabilities plugin result grants now).snd]))) ∧
    (result.insights = none →
      (sanitizeResultForCapabilities plugin result grants now).fst.insights =
        (if (sanitizeResultForCapabilities plugin result grants now).snd.isEmpty then none
         else some [capBlockedInsight plugin.id now
           (sanitizeResultForCapabilities plugin result grants now).snd])) ∧
    (sanitizeResultForCapabilities plugin result grants now).snd.Nodup ∧
    (∀ bl, (capBlockedInsight plugin.id now bl).title = "Capability blocked" ∧
      (capBlockedInsight plugin.id now bl).level = .warning ∧
      (capBlockedInsight plugin.id now bl).message =
        "Blocked by capability grants: " ++
          String.intercalate ", " (bl.map PluginCapability.capName)) := by
  refine ⟨?_, (sanitize_fields plugin result grants now).1,
    (sanitize_fields plugin result grants now).2.1,
    (sanitize_fields plugin result grants now).2.2,
    (sanitize_insights_shape plugin result grants now).1,
    (sanitize_insights_shape plugin result grants now).2,
    sanitize_snd_nodup plugin result grants now,
    fun bl => ⟨rfl, rfl, rfl⟩⟩
  unfold resolveCapabilityGrants
  have hc : (getRequestedCapabilities plugin).contains cap = true :=
    List.contains_iff_exists_mem_beq.mpr ⟨cap, hreq, beq_self_eq_true cap⟩
  rw [hc]
  constructor
  · intro h hlk
    rw [hlk] at h
    simp at h
  · intro h
    have : (grantLookup state plugin.id cap == some false) = false := by
      cases hl : grantLookup state plugin.id cap with
      | none => rfl
      | some b =>
        cases b
        · exact absurd hl h
        · rfl
    simp [this]

theorem capability_default_and_sanitization_witness :
    PluginCapability.messageMutate ∈ getRequestedCapabilities projectPlugin ∧
    (resolveCapabilityGrants projectPlugin {} .messageMutate = true ↔
      ¬ grantLookup {} projectPlugin.id .messageMutate = some false) ∧
    (sanitizeResultForCapabilities projectPlugin resC4 noGrants 0).fst.permissionDecision =
      (if noGrants .permissionAutoDecide then resC4.permissionDecision else none) ∧
    (sanitizeResultForCapabilities projectPlugin resC4 noGrants 0).fst.userMessageMutation =
      (if noGrants .messageMutate then resC4.userMessageMutation else none) ∧
    (sanitizeResultForCapabilities projectPlugin resC4 noGrants 0).fst.eventDataPatch =
      (if noGrants .eventPatch then resC4.eventDataPatch else none) ∧
    (∀ l, resC4.insights = some l →
      (sanitizeResultForCapabilities projectPlugin resC4 noGrants 0).fst.insights =
        some (l.map (clearFlags noGrants) ++
          (if (sanitizeResultForCapabilities projectPlugin resC4 noGrants 0).snd.isEmpty then []
           else [capBlockedInsight projectPlugin.id 0
             (sanitizeResultForCapabilities projectPlugin resC4 noGrants 0).snd]))) ∧
    (resC4.insights = none →
      (sanitizeResultForCapabilities projectPlugin resC4 noGrants 0).fst.insights =
        (if (sanitizeResultForCapabilities projectPlugin resC4 noGrants 0).snd.isEmpty then none
         else some [capBlockedInsight projectPlugin.id 0
           (sanitizeResultForCapabilities projectPlugin resC4 noGrants 0).snd])) ∧
    (sanitizeResultForCapabilities projectPlugin resC4 noGrants 0).snd.Nodup ∧
    (∀ bl, (capBlockedInsight projectPlugin.id 0 bl).title = "Capability blocked" ∧
      (capBlockedInsight projectPlugin.id 0 bl).level = .warning ∧
      (capBlockedInsight projectPlugin.id 0 bl).message =
        "Blocked by capability grants: " ++
          String.intercalate ", " (bl.map PluginCapability.capName)) := by
  have h := capability_default_and_sanitization projectPlugin {} .messageMutate resC4
    noGrants 0 (by decide)
  exact ⟨by decide, h.1, h.2.1, h.2.2.1, h.2.2.2.1, h.2.2.2.2.1, h.2.2.2.2.2.1,
    h.2.2.2.2.2.2.1, h.2.2.2.2.2.2.2⟩

theorem winNew_pos (win0 : List Nat) (d : Nat) :
    0 < (if (win0 ++ [d]).length > 100 then
      (win0 ++ [d]).drop ((win0 ++ [d]).length - 100) else win0 ++ [d]).length := by
  split
  · rename_i h
    rw [List.length_drop]
    omega
  · simp

theorem nextStats_fields (prev : PluginStats) (win0 : List Nat) (d : Nat)
    (o : RunOutcome) (e : Option String) (now : Nat) :
    (nextStats prev win0 d o e now).snd =
      (if (win0 ++ [d]).length > 100 then
        (win0 ++ [d]).drop ((win0 ++ [d]).length - 100) else win0 ++ [d]) ∧
    (nextStats prev win0 d o e now).fst.avgDurationMs =
      jsRound ((nextStats prev win0 d o e now).snd.foldl (· + ·) 0)
        (nextStats prev win0 d o e now).snd.length ∧
    (nextStats prev win0 d o e now).fst.p95DurationMs =
      ((nextStats prev win0 d o e now).snd.insertionSort (· ≤ ·)).getD
        (min ((nextStats prev win0 d o e now).snd.length - 1)
          (ceil95 (nextStats prev win0 d o e now).snd.length - 1)) 0 := by
  have hsnd : (nextStats prev win0 d o e now).snd =
      (if (win0 ++ [d]).length > 100 then
        (win0 ++ [d]).drop ((win0 ++ [d]).length - 100) else win0 ++ [d]) := rfl
  refine ⟨hsnd, ?_, ?_⟩ <;>
  · rw [hsnd]
    have hpos := winNew_pos win0 d
    have hspos : 0 < ((if (win0 ++ [d]).length > 100 then
        (win0 ++ [d]).drop ((win0 ++ [d]).length - 100) else win0 ++ [d]).insertionSort
          (· ≤ ·)).length := by
      rwa [List.length_insertionSort]
    simp only [nextStats, hpos, hspos, if_true, List.length_insertionSort]

theorem ceil95_eq_ceil (n : Nat) : (ceil95 n : ℤ) = ⌈(19 * (n : ℚ)) / 20⌉ := by
  have hdm := Nat.div_add_mod (19 * n + 19) 20
  have hmod : (19 * n + 19) % 20 < 20 := Nat.mod_lt _ (by norm_num)
  set c := (19 * n + 19) / 20 with hc
  have h1 : 19 * n ≤ 20 * c := by omega
  have h2 : 20 * c < 19 * n + 20 := by omega
  have hq1 : (19 : ℚ) * n ≤ 20 * c := by exact_mod_cast h1
  have hq2 : (20 : ℚ) * c < 19 * n + 20 := by exact_mod_cast h2
  have hcc : ceil95 n = c := rfl
  rw [hcc]
  refine (Int.ceil_eq_iff.mpr ⟨?_, ?_⟩).symm
  · have hcast : (((c : ℤ) : ℚ)) = (c : ℚ) := by push_cast; ring
    rw [hcast, lt_div_iff (by norm_num : (0:ℚ) < 20)]
    linarith
  · have hcast : (((c : ℤ) : ℚ)) = (c : ℚ) := by push_cast; ring
    rw [hcast, div_le_iff (by norm_num : (0:ℚ) < 20)]
    linarith

theorem sorted_getD_last_is_max (l : List Nat) (hl : 0 < l.length) :
    (l.insertionSort (· ≤ ·)).getD (l.length - 1) 0 ∈ l ∧
    ∀ x ∈ l, x ≤ (l.insertionSort (· ≤ ·)).getD (l.length - 1) 0 := by
  have hlen : (l.insertionSort (· ≤ ·)).length = l.length :=
    List.length_insertionSort _ _
  have hidx : l.length - 1 < (l.insertionSort (· ≤ ·)).length := by omega
  have hgetD : (l.insertionSort (· ≤ ·)).getD (l.length - 1) 0 =
      (l.insertionSort (· ≤ ·))[l.length - 1] := by
    simp [List.getD_eq_getElem?_getD, List.getElem?_eq_getElem hidx]
  constructor
  · rw [hgetD]
    exact (List.perm_insertionSort (· ≤ ·) l).mem_iff.mp (List.getElem_mem _)
  · intro x hx
    have hx' : x ∈ l.insertionSort (· ≤ ·) :=
      (List.perm_insertionSort (· ≤ ·) l).mem_iff.mpr hx
    obtain ⟨i, hi, hxi⟩ := List.mem_iff_getElem.mp hx'
    rw [hgetD, ← hxi]
    have hsorted : (l.insertionSort (· ≤ ·)).Sorted (· ≤ ·) :=
      List.sorted_insertionSort (· ≤ ·) l
    have hle : i ≤ l.length - 1 := by omega
    rcases Nat.lt_or_ge i (l.length - 1) with hlt | hge
    · exact hsorted.rel_get_of_lt (by simpa [hlen] using hlt)
    · have : i = l.length - 1 := by omega
      subst this
      exact le_refl _

set_option maxRecDepth 10000 in
theorem p95_calibration :
    ((msDurs.stats.lookup "p").getD createEmptyStats).p95DurationMs = 950 := by decide

/-- C7 counterexample: the claim says `avgDurationMs` *is* the arithmetic
mean of the window; after recording durations 1 and 2 the code stores
`Math.round(3/2) = 2`, which differs from the mean `3/2`. -/
theorem avgDurationMs_not_exact_mean :
    (((updateStatsOnRun "p" 2 .success none 0
        (updateStatsOnRun "p" 1 .success none 0 {})).stats.lookup "p").getD
      createEmptyStats).avgDurationMs = 2 ∧
    ¬ ((((updateStatsOnRun "p" 2 .success none 0
        (updateStatsOnRun "p" 1 .success none 0 {})).stats.lookup "p").getD
      createEmptyStats).avgDurationMs : ℚ) = ((1 : ℚ) + 2) / 2 := by
  have h : (((updateStatsOnRun "p" 2 .success none 0
      (updateStatsOnRun "p" 1 .success none 0 {})).stats.lookup "p").getD
      createEmptyStats).avgDurationMs = 2 := by decide
  refine ⟨h, ?_⟩
  rw [h]
  norm_num

/-- C7 (amended): the window keeps the last ≤ 100 durations (oldest evicted
first); `avgDurationMs` is the arithmetic mean of the window *rounded half
up to the nearest integer* (bounded within half a unit of the exact mean);
`p95DurationMs` is the element at index `⌈0.95·n⌉ − 1` (clamped to
`[0, n−1]`) of the window sorted ascending, `⌈0.95·n⌉` computed exactly as
`ceil95`; with fewer than 20 samples p95 is the maximum sample; and over
the durations 10, 20, ..., 1000 p95 is 950, the 95th ascending sample. -/
theorem telemetry_window_amended (id : String) (d : Nat) (outcome : RunOutcome)
    (err : Option String) (now : Nat) (ms : ManagerState) (s : PluginStats) (w : List Nat)
    (hs : (updateStatsOnRun id d outcome err now ms).stats.lookup id = some s)
    (hw : (updateStatsOnRun id d outcome err now ms).durationWindows.lookup id = some w) :
    w = (if (((ms.durationWindows.lookup id).getD []) ++ [d]).length > 100 then
          (((ms.durationWindows.lookup id).getD []) ++ [d]).drop
            ((((ms.durationWindows.lookup id).getD []) ++ [d]).length - 100)
         else ((ms.durationWindows.lookup id).getD []) ++ [d]) ∧
    w.length ≤ 100 ∧
    s.avgDurationMs = jsRound (w.foldl (· + ·) 0) w.length ∧
    2 * s.avgDurationMs * w.length ≤ 2 * (w.foldl (· + ·) 0) + w.length ∧
    2 * (w.foldl (· + ·) 0) ≤ 2 * s.avgDurationMs * w.length + w.length ∧
    s.p95DurationMs =
      (w.insertionSort (· ≤ ·)).getD (min (w.length - 1) (ceil95 w.length - 1)) 0 ∧
    (ceil95 w.length : ℤ) = ⌈(19 * (w.length : ℚ)) / 20⌉ ∧
    (w.length < 20 → s.p95DurationMs ∈ w ∧ ∀ x ∈ w, x ≤ s.p95DurationMs) ∧
    ((msDurs.stats.lookup "p").getD createEmptyStats).p95DurationMs = 950 := by
  obtain ⟨hls, hlw, _⟩ := updateStatsOnRun_lookups id d outcome err now ms
  rw [hls] at hs
  rw [hlw] at hw
  have hs' := (Option.some.injEq _ _).mp hs.symm
  have hw' := (Option.some.injEq _ _).mp hw.symm
  obtain ⟨hfw, hfa, hfp⟩ := nextStats_fields ((ms.stats.lookup id).getD createEmptyStats)
    ((ms.durationWindows.lookup id).getD []) d outcome err now
  have hweq : w = (if (((ms.durationWindows.lookup id).getD []) ++ [d]).length > 100 then
      (((ms.durationWindows.lookup id).getD []) ++ [d]).drop
        ((((ms.durationWindows.lookup id).getD []) ++ [d]).length - 100)
     else ((ms.durationWindows.lookup id).getD []) ++ [d]) := by rw [hw']; exact hfw
  have hwpos : 0 < w.length := by
    rw [hweq]
    exact winNew_pos _ _
  have havg : s.avgDurationMs = jsRound (w.foldl (· + ·) 0) w.length := by
    rw [hs', hw']
    exact hfa
  have hp95 : s.p95DurationMs =
      (w.insertionSort (· ≤ ·)).getD (min (w.length - 1) (ceil95 w.length - 1)) 0 := by
    rw [hs', hw']
    exact hfp
  refine ⟨hweq, ?_, havg, ?_, ?_, hp95, ceil95_eq_ceil w.length, ?_, p95_calibration⟩
  · rw [hweq]
    split
    · rw [List.length_drop]
      omega
    · rename_i hgt
      omega
  · rw [havg]
    unfold jsRound
    have hdm := Nat.div_add_mod (2 * (w.foldl (· + ·) 0) + w.length) (2 * w.length)
    have hmod : (2 * (w.foldl (· + ·) 0) + w.length) % (2 * w.length) < 2 * w.length :=
      Nat.mod_lt _ (by omega)
    set q := (2 * (w.foldl (· + ·) 0) + w.length) / (2 * w.length) with hq
    set r := (2 * (w.foldl (· + ·) 0) + w.length) % (2 * w.length) with hr
    have hb : 2 * q * w.length = 2 * w.length * q := by ring
    rw [hb]
    linarith
  · rw [havg]
    unfold jsRound
    have hdm := Nat.div_add_mod (2 * (w.foldl (· + ·) 0) + w.length) (2 * w.length)
    have hmod : (2 * (w.foldl (· + ·) 0) + w.length) % (2 * w.length) < 2 * w.length :=
      Nat.mod_lt _ (by omega)
    set q := (2 * (w.foldl (· + ·) 0) + w.length) / (2 * w.length) with hq
    set r := (2 * (w.foldl (· + ·) 0) + w.length) % (2 * w.length) with hr
    have hb : 2 * q * w.length = 2 * w.length * q := by ring
    rw [hb]
    linarith
  · intro hsmall
    have hceil : w.length ≤ ceil95 w.length := by
      rw [show ceil95 w.length = (19 * w.length + 19) / 20 from rfl]
      rw [Nat.le_div_iff_mul_le (by norm_num)]
      omega
    have hmin : min (w.length - 1) (ceil95 w.length - 1) = w.length - 1 := by omega
    rw [hp95, hmin]
    exact sorted_getD_last_is_max w hwpos

theorem telemetry_window_amended_witness :
    (updateStatsOnRun "p" 3 .success none 0 msW7).stats.lookup "p" =
      some { invocations := 1, successes := 1, errors := 0, timeouts := 0, aborted := 0,
             lastDurationMs := 3, lastInvokedAt := some 0, lastError := none,
             avgDurationMs := 3, p95DurationMs := 5 } ∧
    (updateStatsOnRun "p" 3 .success none 0 msW7).durationWindows.lookup "p" =
      some [5, 1, 3] ∧
    (([5, 1, 3] : List Nat) =
      (if (((msW7.durationWindows.lookup "p").getD []) ++ [3]).length > 100 then
        (((msW7.durationWindows.lookup "p").getD []) ++ [3]).drop
          ((((msW7.durationWindows.lookup "p").getD []) ++ [3]).length - 100)
       else ((msW7.durationWindows.lookup "p").getD []) ++ [3]) ∧
     ([5, 1, 3] : List Nat).length ≤ 100 ∧
     (3 : Nat) = jsRound (([5, 1, 3] : List Nat).foldl (· + ·) 0) ([5, 1, 3] : List Nat).length ∧
     2 * 3 * ([5, 1, 3] : List Nat).length ≤
       2 * (([5, 1, 3] : List Nat).foldl (· + ·) 0) + ([5, 1, 3] : List Nat).length ∧
     2 * (([5, 1, 3] : List Nat).foldl (· + ·) 0) ≤
       2 * 3 * ([5, 1, 3] : List Nat).length + ([5, 1, 3] : List Nat).length ∧
     (5 : Nat) = (([5, 1, 3] : List Nat).insertionSort (· ≤ ·)).getD
       (min (([5, 1, 3] : List Nat).length - 1) (ceil95 ([5, 1, 3] : List Nat).length - 1)) 0 ∧
     (ceil95 ([5, 1, 3] : List Nat).length : ℤ) =
       ⌈(19 * ((([5, 1, 3] : List Nat).length : Nat) : ℚ)) / 20⌉ ∧
     (([5, 1, 3] : List Nat).length < 20 →
       (5 : Nat) ∈ ([5, 1, 3] : List Nat) ∧ ∀ x ∈ ([5, 1, 3] : List Nat), x ≤ 5) ∧
     ((msDurs.stats.lookup "p").getD createEmptyStats).p95DurationMs = 950) :=
  ⟨by decide, by decide,
    telemetry_window_amended "p" 3 .success none 0 msW7
      { invocations := 1, successes := 1, errors := 0, timeouts := 0, aborted := 0,
        lastDurationMs := 3, lastInvokedAt := some 0, lastError := none,
        avgDurationMs := 3, p95DurationMs := 5 } [5, 1, 3] (by decide) (by decide)⟩

/-- C2: with the two calibration mutators enabled and granted, emitting
`user.message.before_send` with content "hello" runs "global" (priority 100)
before "project" (priority 50); each mutation is written into the derived
event's data so the next blocking plugin observes it, the merged
`userMessageMutation` content is "[global] hello [project]", and the
mutation merge is field-by-field shallow overwrite. -/
theorem emit_message_mutation_chain :
    (emit evC2 0 msC2).fst.result.userMessageMutation =
      some { content := some "[global] hello [project]", images := none, plugin_id := none } ∧
    (emit evC2 0 msC2).fst.blockingTrace = ["global", "project"] ∧
    getContentOf (emit evC2 0 msC2).fst.finalEvent = "[global] hello [project]" ∧
    (emit evC2 0 msC2).fst.result.aborted = false ∧
    (∀ prev m : UserMessageMutation, mergeMutation (some prev) m =
      { content := if m.content.isSome then m.content else prev.content,
        images := if m.images.isSome then m.images else prev.images,
        plugin_id := if m.plugin_id.isSome then m.plugin_id else prev.plugin_id }) :=
  ⟨by decide, by decide, by decide, by decide, fun prev m => rfl⟩

theorem updateStatsOnRun_store (id : String) (d : Nat) (o : RunOutcome) (e : Option String)
    (now : Nat) (ms : ManagerState) : (updateStatsOnRun id d o e now ms).store = ms.store := rfl

theorem executePlugin_snd (p : PluginDefinition) (ev : PluginEvent) (sc : Option CVal)
    (now : Nat) (ms : ManagerState) :
    (executePlugin p ev sc now ms).snd = (resolveConfig p sc true ms).snd := by
  simp only [executePlugin]
  split <;> rfl

theorem resolveCapabilityGrants_congr (p : PluginDefinition) {s1 s2 : PersistedState}
    (h : s1.grants = s2.grants) :
    resolveCapabilityGrants p s1 = resolveCapabilityGrants p s2 := by
  funext cap
  unfold resolveCapabilityGrants grantLookup
  rw [h]

theorem executePlugin_fst_congr (p : PluginDefinition) (ev : PluginEvent) (sc : Option CVal)
    (now : Nat) {ms1 ms2 : ManagerState} (h : ms1.store.grants = ms2.store.grants) :
    (executePlugin p ev sc now ms1).fst = (executePlugin p ev sc now ms2).fst := by
  have hg : resolveCapabilityGrants p (resolveConfig p sc true ms1).snd.store =
      resolveCapabilityGrants p (resolveConfig p sc true ms2).snd.store := by
    apply resolveCapabilityGrants_congr
    rw [(resolveConfig_preserves p sc true ms1).1, (resolveConfig_preserves p sc true ms2).1, h]
  have hc : (resolveConfig p sc true ms1).fst = (resolveConfig p sc true ms2).fst := by
    rw [resolveConfig_fst, resolveConfig_fst]
  simp only [executePlugin, hc, hg]
  cases hev : p.onEvent ev (resolveConfig p sc true ms2).fst with
  | ok d r => cases r <;> simp [hev]
  | throws d msg => simp [hev]
  | deadline => simp [hev]

theorem executePlugin_error_none (p : PluginDefinition) (ev : PluginEvent) (sc : Option CVal)
    (now : Nat) (ms : ManagerState) (hnf : handlerNeverFails p) :
    (executePlugin p ev sc now ms).fst.error = none := by
  simp only [executePlugin]
  split
  · rename_i heq
    have := hnf ev (resolveConfig p sc true ms).fst
    rw [heq] at this
    simp [isFailB] at this
  · rename_i heq
    have := hnf ev (resolveConfig p sc true ms).fst
    rw [heq] at this
    simp [isFailB] at this
  · rfl
  · rfl

set_option maxHeartbeats 3200000 in
theorem applyBlockingResult_frame (result : PluginEventResult) (acc : EmitAcc) :
    (applyBlockingResult result acc).aborted = acc.aborted ∧
    (applyBlockingResult result acc).blockingTrace = acc.blockingTrace ∧
    (applyBlockingResult result acc).ms = acc.ms ∧
    (applyBlockingResult result acc).asyncInsights = acc.asyncInsights := by
  refine ⟨?_, ?_, ?_, ?_⟩ <;>
    · unfold applyBlockingResult
      cases hP : result.eventDataPatch <;> cases hD : acc.mutableEvent.data <;>
        cases hI : result.insights <;> cases hPD : acc.permissionDecision <;>
          cases hRD : result.permissionDecision <;> cases hM : result.userMessageMutation <;>
            simp [hP, hD, hI, hPD, hRD, hM] <;> (repeat' split) <;> simp

theorem emitStep_facts (state : PersistedState) (ev0 : PluginEvent) (now : Nat)
    (p : PluginDefinition) (acc : EmitAcc) :
    (emitStep state ev0 now p acc).fst.ms.store.grants = acc.ms.store.grants ∧
    (emitStep state ev0 now p acc).fst.blockingTrace =
      acc.blockingTrace ++
        (if ((state.enabled.lookup p.id).getD p.defaultEnabled && p.blocking) then [p.id]
         else []) ∧
    ((emitStep state ev0 now p acc).snd = true →
      ((state.enabled.lookup p.id).getD p.defaultEnabled) = true ∧ p.blocking = true ∧
      p.failPolicy.getD .cont = .abortCurrentAction ∧
      (emitStep state ev0 now p acc).fst.aborted = true) ∧
    ((emitStep state ev0 now p acc).snd = false →
      (emitStep state ev0 now p acc).fst.aborted = acc.aborted) ∧
    (handlerNeverFails p → (emitStep state ev0 now p acc).snd = false) := by
  have h1 : ∀ (e : Bool) (ms' : ManagerState),
      (updateHealthFromEnabled p.id e now ms').store.grants = ms'.store.grants := fun e ms' => by
    rw [(updateHealthFromEnabled_preserves _ _ _ _).1]
  have h2 : ∀ (d : Nat) (o : RunOutcome) (e : Option String) (ms' : ManagerState),
      (updateStatsOnRun p.id d o e now ms').store.grants = ms'.store.grants := fun _ _ _ _ => rfl
  have h3 : ∀ (ev : PluginEvent) (sc : Option CVal) (ms' : ManagerState),
      (executePlugin p ev sc now ms').snd.store.grants = ms'.store.grants := fun ev sc ms' => by
    rw [executePlugin_snd, (resolveConfig_preserves _ _ _ _).1]
  by_cases hen : (state.enabled.lookup p.id).getD p.defaultEnabled = true
  · by_cases hb : p.blocking = true
    · -- enabled, blocking
      simp only [emitStep, hen, hb, Bool.not_true, Bool.false_eq_true, if_false,
        Bool.and_true, if_true]
      split
      · -- handler failed
        rename_i err heq
        split
        · -- abort_current_action: break
          rename_i hpol
          refine ⟨?_, ?_, ?_, ?_, ?_⟩
          · simp [h1, h2, h3]
          · simp
          · intro _
            refine ⟨trivial, trivial, hpol, ?_⟩
            simp
          · intro hcontra
            simp at hcontra
          · intro hnf
            exfalso
            have hne := executePlugin_error_none p acc.mutableEvent
              (state.config.lookup p.id) now (updateHealthFromEnabled p.id true now acc.ms) hnf
            rw [hne] at heq
            cases heq
        · -- continue
          refine ⟨?_, ?_, ?_, ?_, ?_⟩
          · simp [h1, h2, h3]
          · simp
          · intro hcontra
            simp at hcontra
          · intro _
            simp
          · intro _
            trivial
      · -- handler succeeded
        split
        · -- no result
          refine ⟨?_, ?_, ?_, ?_, ?_⟩
          · simp [h1, h2, h3]
          · simp
          · intro hcontra
            simp at hcontra
          · intro _
            simp
          · intro _
            trivial
        · -- result processed
          rename_i result heq2
          obtain ⟨hfa, hft, hfm, _⟩ := applyBlockingResult_frame result _
          refine ⟨?_, ?_, ?_, ?_, ?_⟩
          · rw [hfm]
            simp [h1, h2, h3]
          · rw [hft]
            try simp
          · intro hcontra
            simp at hcontra
          · intro _
            rw [hfa]
            try simp
          · intro _
            trivial
    · -- enabled, non-blocking
      have hb' : p.blocking = false := by simpa using hb
      simp only [emitStep, hen, hb', Bool.not_true, Bool.false_eq_true, if_false,
        Bool.not_false, if_true, Bool.and_false]
      split
      · refine ⟨by simp [h1, h2, h3], by simp, fun hcontra => by simp at hcontra,
          fun _ => by simp, fun _ => by trivial⟩
      · split
        · split
          · split
            · refine ⟨by simp [h1, h2, h3], by simp, fun hcontra => by simp at hcontra,
                fun _ => by simp, fun _ => by trivial⟩
            · refine ⟨by simp [h1, h2, h3], by simp, fun hcontra => by simp at hcontra,
                fun _ => by simp, fun _ => by trivial⟩
          · refine ⟨by simp [h1, h2, h3], by simp, fun hcontra => by simp at hcontra,
              fun _ => by simp, fun _ => by trivial⟩
        · refine ⟨by simp [h1, h2, h3], by simp, fun hcontra => by simp at hcontra,
            fun _ => by simp, fun _ => by trivial⟩
  · -- disabled
    have hen' : (state.enabled.lookup p.id).getD p.defaultEnabled = false := by
      simpa using hen
    simp only [emitStep, hen', Bool.not_false, if_true, Bool.false_and, Bool.false_eq_true,
      if_false]
    exact ⟨by simp [h1], by simp, fun hcontra => by simp at hcontra,
      fun _ => by simp, fun _ => by trivial⟩

theorem expectedBlk_cons (state : PersistedState) (p : PluginDefinition)
    (rest : List PluginDefinition) :
    expectedBlk state (p :: rest) =
      (if ((state.enabled.lookup p.id).getD p.defaultEnabled && p.blocking) then [p.id]
       else []) ++ expectedBlk state rest := by
  simp only [expectedBlk, List.filter_cons, resolvedEnabled]
  split <;> simp_all

theorem emitLoop_trace_prefix (state : PersistedState) (ev0 : PluginEvent) (now : Nat) :
    ∀ (plugins : List PluginDefinition) (acc : EmitAcc), ∃ t,
      (emitLoop state ev0 now plugins acc).blockingTrace ++ t =
        acc.blockingTrace ++ expectedBlk state plugins
  | [], acc => ⟨[], by simp [emitLoop, expectedBlk]⟩
  | p :: rest, acc => by
    obtain ⟨_, htr, hsnd_true, _, _⟩ := emitStep_facts state ev0 now p acc
    cases hsnd : (emitStep state ev0 now p acc).snd with
    | true =>
      obtain ⟨he, hb, _, _⟩ := hsnd_true hsnd
      refine ⟨expectedBlk state rest, ?_⟩
      simp only [emitLoop, hsnd, if_true]
      rw [htr, expectedBlk_cons, he, hb]
      simp
    | false =>
      obtain ⟨t, ht⟩ := emitLoop_trace_prefix state ev0 now rest
        (emitStep state ev0 now p acc).fst
      refine ⟨t, ?_⟩
      simp only [emitLoop, hsnd, Bool.false_eq_true, if_false]
      rw [ht, htr, expectedBlk_cons, List.append_assoc]

theorem emitLoop_aborted (state : PersistedState) (ev0 : PluginEvent) (now : Nat) :
    ∀ (plugins : List PluginDefinition) (acc : EmitAcc),
      (emitLoop state ev0 now plugins acc).aborted = true →
      acc.aborted = true ∨ ∃ q ∈ plugins,
        ((state.enabled.lookup q.id).getD q.defaultEnabled) = true ∧ q.blocking = true ∧
        q.failPolicy.getD .cont = .abortCurrentAction
  | [], acc, h => .inl (by simpa [emitLoop] using h)
  | p :: rest, acc, h => by
    obtain ⟨_, _, hsnd_true, hsnd_false, _⟩ := emitStep_facts state ev0 now p acc
    simp only [emitLoop] at h
    cases hsnd : (emitStep state ev0 now p acc).snd with
    | true =>
      obtain ⟨he, hb, hpol, _⟩ := hsnd_true hsnd
      exact .inr ⟨p, List.mem_cons_self p rest, he, hb, hpol⟩
    | false =>
      rw [hsnd] at h
      simp only [Bool.false_eq_true, if_false] at h
      rcases emitLoop_aborted state ev0 now rest _ h with hacc | ⟨q, hq, hrest⟩
      · left
        rw [← hsnd_false hsnd]
        exact hacc
      · exact .inr ⟨q, List.mem_cons_of_mem _ hq, hrest⟩

theorem emitLoop_trace_nofail (state : PersistedState) (ev0 : PluginEvent) (now : Nat) :
    ∀ (plugins : List PluginDefinition) (acc : EmitAcc),
      (∀ q ∈ plugins, handlerNeverFails q) →
      (emitLoop state ev0 now plugins acc).blockingTrace =
        acc.blockingTrace ++ expectedBlk state plugins
  | [], acc, _ => by simp [emitLoop, expectedBlk]
  | p :: rest, acc, hnfs => by
    obtain ⟨_, htr, _, _, hnf⟩ := emitStep_facts state ev0 now p acc
    have hsnd : (emitStep state ev0 now p acc).snd = false :=
      hnf (hnfs p (List.mem_cons_self p rest))
    simp only [emitLoop, hsnd, Bool.false_eq_true, if_false]
    rw [emitLoop_trace_nofail state ev0 now rest (emitStep state ev0 now p acc).fst
      (fun q hq => hnfs q (List.mem_cons_of_mem _ hq)), htr, expectedBlk_cons,
      List.append_assoc]

theorem filter_prio_orderedInsert (x : PluginDefinition) (k : Int) :
    ∀ (L : List PluginDefinition),
      (List.orderedInsert prioGe x L).filter (fun p => p.priority == k) =
        if x.priority == k then x :: L.filter (fun p => p.priority == k)
        else L.filter (fun p => p.priority == k)
  | [] => by
    simp [List.orderedInsert, List.filter_cons]
  | b :: L => by
    by_cases hle : prioGe x b
    · rw [List.orderedInsert_of_le prioGe L hle]
      simp only [List.filter_cons]
    · have hx : x.priority < b.priority := by
        simpa [prioGe, not_le] using hle
      have horder : List.orderedInsert prioGe x (b :: L) =
          b :: List.orderedInsert prioGe x L := by
        simp only [List.orderedInsert]
        rw [if_neg hle]
      rw [horder]
      simp only [List.filter_cons]
      rw [filter_prio_orderedInsert x k L]
      by_cases hxk : (x.priority == k) = true
      · have hbk : (b.priority == k) = false := by
          rw [beq_iff_eq] at hxk
          rw [beq_eq_false_iff_ne]
          omega
        simp [hxk, hbk]
      · have hxk' : (x.priority == k) = false := by simpa using hxk
        simp only [hxk', if_false]
        split <;> rfl

theorem filter_prio_insertionSort (k : Int) :
    ∀ (l : List PluginDefinition),
      (l.insertionSort prioGe).filter (fun p => p.priority == k) =
        l.filter (fun p => p.priority == k)
  | [] => rfl
  | x :: l => by
    simp only [List.insertionSort]
    rw [filter_prio_orderedInsert x k (l.insertionSort prioGe),
      filter_prio_insertionSort k l, List.filter_cons]

/-- C1: for every emitted event, the candidate list is sorted in descending
priority with ties kept in registration order (the per-priority subsequences
of the stable sort equal those of the registration-ordered list), the
blocking plugins actually awaited are a prefix of the enabled blocking
candidates in that order, and when no handler fails the whole list is
awaited, in exactly that order. -/
theorem emit_blocking_priority_order (ev : PluginEvent) (now : Nat) (ms : ManagerState) :
    List.Pairwise (fun a b : PluginDefinition => b.priority ≤ a.priority)
      (candidatesOf ms.definitions ev.name) ∧
    (∀ k : Int, (candidatesOf ms.definitions ev.name).filter (fun p => p.priority == k) =
      (ms.definitions.filter
        (fun p => p.events.contains "*" || p.events.contains ev.name)).filter
        (fun p => p.priority == k)) ∧
    (∃ t, (emit ev now ms).fst.blockingTrace ++ t =
      expectedBlk ms.store (candidatesOf ms.definitions ev.name)) ∧
    ((∀ q ∈ candidatesOf ms.definitions ev.name, handlerNeverFails q) →
      (emit ev now ms).fst.blockingTrace =
        expectedBlk ms.store (candidatesOf ms.definitions ev.name)) := by
  refine ⟨?_, ?_, ?_, ?_⟩
  · exact List.sorted_insertionSort prioGe _
  · intro k
    exact filter_prio_insertionSort k _
  · obtain ⟨t, ht⟩ := emitLoop_trace_prefix ms.store ev now
      (candidatesOf ms.definitions ev.name) { mutableEvent := ev, ms := ms }
    exact ⟨t, by simpa [emit] using ht⟩
  · intro hnfs
    have := emitLoop_trace_nofail ms.store ev now (candidatesOf ms.definitions ev.name)
      { mutableEvent := ev, ms := ms } hnfs
    simpa [emit] using this

theorem emit_blocking_priority_order_witness :
    (∀ q ∈ candidatesOf msC2.definitions evC2.name, handlerNeverFails q) ∧
    (List.Pairwise (fun a b : PluginDefinition => b.priority ≤ a.priority)
      (candidatesOf msC2.definitions evC2.name) ∧
    (∀ k : Int, (candidatesOf msC2.definitions evC2.name).filter (fun p => p.priority == k) =
      (msC2.definitions.filter
        (fun p => p.events.contains "*" || p.events.contains evC2.name)).filter
        (fun p => p.priority == k)) ∧
    (∃ t, (emit evC2 0 msC2).fst.blockingTrace ++ t =
      expectedBlk msC2.store (candidatesOf msC2.definitions evC2.name)) ∧
    ((∀ q ∈ candidatesOf msC2.definitions evC2.name, handlerNeverFails q) →
      (emit evC2 0 msC2).fst.blockingTrace =
        expectedBlk msC2.store (candidatesOf msC2.definitions evC2.name))) := by
  have hnf : ∀ q ∈ candidatesOf msC2.definitions evC2.name, handlerNeverFails q := by
    intro q hq
    have : q = globalPlugin ∨ q = projectPlugin := by
      have : candidatesOf msC2.definitions evC2.name = [globalPlugin, projectPlugin] := rfl
      rw [this] at hq
      simpa using hq
    rcases this with h | h <;> subst h <;> exact fun ev cfg => rfl
  exact ⟨hnf, emit_blocking_priority_order evC2 0 msC2⟩

/-- C3: when a blocking candidate's handler fails (throws, rejects or times
out), an error-level insight naming the plugin (with event name, session id
and failure message) is appended; with fail policy `abort_current_action`
the dispatch stops at that plugin with `aborted = true`, with the default
`continue` policy the loop proceeds to the remaining candidates with
`aborted` unchanged; and `aborted` can only ever be set by an enabled
blocking candidate whose fail policy is `abort_current_action`. -/
theorem emit_fail_policy (state : PersistedState) (ev0 : PluginEvent) (now : Nat)
    (p : PluginDefinition) (rest : List PluginDefinition) (acc : EmitAcc) (err : ExecError)
    (ev : PluginEvent) (ms : ManagerState)
    (hen : (state.enabled.lookup p.id).getD p.defaultEnabled = true)
    (hb : p.blocking = true)
    (herr : (executePlugin p acc.mutableEvent (state.config.lookup p.id) now
      acc.ms).fst.error = some err) :
    (p.failPolicy.getD .cont = .abortCurrentAction →
      (emitLoop state ev0 now (p :: rest) acc).aborted = true ∧
      (emitLoop state ev0 now (p :: rest) acc).blockingTrace = acc.blockingTrace ++ [p.id] ∧
      (emitLoop state ev0 now (p :: rest) acc).insights =
        acc.insights ++ [toPluginErrorInsight p.id ev0 err now]) ∧
    (p.failPolicy.getD .cont = .cont →
      ∃ acc', emitLoop state ev0 now (p :: rest) acc = emitLoop state ev0 now rest acc' ∧
        acc'.aborted = acc.aborted ∧
        acc'.insights = acc.insights ++ [toPluginErrorInsight p.id ev0 err now] ∧
        acc'.blockingTrace = acc.blockingTrace ++ [p.id] ∧
        acc'.mutableEvent = acc.mutableEvent ∧
        acc'.permissionDecision = acc.permissionDecision ∧
        acc'.userMessageMutation = acc.userMessageMutation) ∧
    ((emit ev now ms).fst.result.aborted = true →
      ∃ q ∈ candidatesOf ms.definitions ev.name,
        resolvedEnabled ms.store q = true ∧ q.blocking = true ∧
        q.failPolicy.getD .cont = .abortCurrentAction) ∧
    (toPluginErrorInsight p.id ev0 err now).plugin_id = p.id ∧
    (toPluginErrorInsight p.id ev0 err now).level = .error ∧
    (toPluginErrorInsight p.id ev0 err now).event_name = some ev0.name ∧
    (toPluginErrorInsight p.id ev0 err now).session_id = some ev0.meta.sessionId ∧
    (toPluginErrorInsight p.id ev0 err now).message = err.messageOf := by
  have hfst : (executePlugin p acc.mutableEvent (state.config.lookup p.id) now
      (updateHealthFromEnabled p.id ((state.enabled.lookup p.id).getD p.defaultEnabled) now
        acc.ms)).fst =
      (executePlugin p acc.mutableEvent (state.config.lookup p.id) now acc.ms).fst := by
    apply executePlugin_fst_congr
    rw [(updateHealthFromEnabled_preserves _ _ _ _).1]
  refine ⟨?_, ?_, ?_, rfl, rfl, rfl, rfl, rfl⟩
  · intro hpol
    simp only [emitLoop, emitStep, hen, hb, Bool.not_true, Bool.false_eq_true, if_false,
      if_true]
    rw [hen] at hfst
    rw [hfst, herr]
    simp [hpol]
  · intro hpol
    have hpol' : ¬ (p.failPolicy.getD .cont = .abortCurrentAction) := by
      rw [hpol]
      intro hcontra
      cases hcontra
    simp only [emitLoop, emitStep, hen, hb, Bool.not_true, Bool.false_eq_true, if_false,
      if_true]
    rw [hen] at hfst
    rw [hfst, herr]
    simp only [hpol, reduceCtorEq, if_false, Bool.false_eq_true]
    exact ⟨_, rfl, by simp, by simp, by simp, by simp, by simp, by simp⟩
  · intro hab
    have hab' : (emitLoop ms.store ev now (candidatesOf ms.definitions ev.name)
        { mutableEvent := ev, ms := ms }).aborted = true := by
      simpa [emit] using hab
    rcases emitLoop_aborted ms.store ev now (candidatesOf ms.definitions ev.name)
      { mutableEvent := ev, ms := ms } hab' with hacc | ⟨q, hq, h1, h2, h3⟩
    · cases hacc
    · exact ⟨q, hq, h1, h2, h3⟩

theorem emit_fail_policy_witness :
    ((({} : PersistedState).enabled.lookup abortPlugin.id).getD abortPlugin.defaultEnabled
      = true) ∧
    abortPlugin.blocking = true ∧
    ((executePlugin abortPlugin (accOf evAny {}).mutableEvent
      (({} : PersistedState).config.lookup abortPlugin.id) 0 (accOf evAny {}).ms).fst.error =
      some (.thrown "boom")) ∧
    ((abortPlugin.failPolicy.getD .cont = .abortCurrentAction →
      (emitLoop {} evAny 0 (abortPlugin :: [tailPlugin]) (accOf evAny {})).aborted = true ∧
      (emitLoop {} evAny 0 (abortPlugin :: [tailPlugin]) (accOf evAny {})).blockingTrace =
        (accOf evAny {}).blockingTrace ++ [abortPlugin.id] ∧
      (emitLoop {} evAny 0 (abortPlugin :: [tailPlugin]) (accOf evAny {})).insights =
        (accOf evAny {}).insights ++
          [toPluginErrorInsight abortPlugin.id evAny (.thrown "boom") 0]) ∧
    (abortPlugin.failPolicy.getD .cont = .cont →
      ∃ acc', emitLoop {} evAny 0 (abortPlugin :: [tailPlugin]) (accOf evAny {}) =
          emitLoop {} evAny 0 [tailPlugin] acc' ∧
        acc'.aborted = (accOf evAny {}).aborted ∧
        acc'.insights = (accOf evAny {}).insights ++
          [toPluginErrorInsight abortPlugin.id evAny (.thrown "boom") 0] ∧
        acc'.blockingTrace = (accOf evAny {}).blockingTrace ++ [abortPlugin.id] ∧
        acc'.mutableEvent = (accOf evAny {}).mutableEvent ∧
        acc'.permissionDecision = (accOf evAny {}).permissionDecision ∧
        acc'.userMessageMutation = (accOf evAny {}).userMessageMutation) ∧
    ((emit evAny 0 ({} : ManagerState)).fst.result.aborted = true →
      ∃ q ∈ candidatesOf ({} : ManagerState).definitions evAny.name,
        resolvedEnabled ({} : ManagerState).store q = true ∧ q.blocking = true ∧
        q.failPolicy.getD .cont = .abortCurrentAction) ∧
    (toPluginErrorInsight abortPlugin.id evAny (.thrown "boom") 0).plugin_id =
      abortPlugin.id ∧
    (toPluginErrorInsight abortPlugin.id evAny (.thrown "boom") 0).level = .error ∧
    (toPluginErrorInsight abortPlugin.id evAny (.thrown "boom") 0).event_name =
      some evAny.name ∧
    (toPluginErrorInsight abortPlugin.id evAny (.thrown "boom") 0).session_id =
      some evAny.meta.sessionId ∧
    (toPluginErrorInsight abortPlugin.id evAny (.thrown "boom") 0).message =
      (ExecError.thrown "boom").messageOf) :=
  ⟨by decide, rfl, by decide,
    emit_fail_policy {} evAny 0 abortPlugin [tailPlugin] (accOf evAny {})
      (.thrown "boom") evAny {} (by decide) rfl (by decide)⟩

theorem emitStep_nonblocking_obs (state : PersistedState) (ev0 : PluginEvent) (now : Nat)
    (p : PluginDefinition) (acc : EmitAcc) (hpb : p.blocking = false) :
    (emitStep state ev0 now p acc).fst.insights = acc.insights ∧
    (emitStep state ev0 now p acc).fst.permissionDecision = acc.permissionDecision ∧
    (emitStep state ev0 now p acc).fst.userMessageMutation = acc.userMessageMutation ∧
    (emitStep state ev0 now p acc).fst.aborted = acc.aborted ∧
    (emitStep state ev0 now p acc).fst.mutableEvent = acc.mutableEvent ∧
    (emitStep state ev0 now p acc).fst.blockingTrace = acc.blockingTrace ∧
    (emitStep state ev0 now p acc).snd = false := by
  by_cases hen : (state.enabled.lookup p.id).getD p.defaultEnabled = true
  · simp only [emitStep, hen, hpb, Bool.not_true, Bool.false_eq_true, if_false,
      Bool.not_false, if_true]
    (repeat' split) <;> simp
  · have hen' : (state.enabled.lookup p.id).getD p.defaultEnabled = false := by
      simpa using hen
    simp only [emitStep, hen', Bool.not_false, if_true]
    simp

set_option maxHeartbeats 3200000 in
theorem applyBlockingResult_congr (result : PluginEventResult) (a b : EmitAcc)
    (h1 : a.insights = b.insights) (h2 : a.permissionDecision = b.permissionDecision)
    (h3 : a.userMessageMutation = b.userMessageMutation)
    (h5 : a.mutableEvent = b.mutableEvent) :
    (applyBlockingResult result a).insights = (applyBlockingResult result b).insights ∧
    (applyBlockingResult result a).permissionDecision =
      (applyBlockingResult result b).permissionDecision ∧
    (applyBlockingResult result a).userMessageMutation =
      (applyBlockingResult result b).userMessageMutation ∧
    (applyBlockingResult result a).mutableEvent = (applyBlockingResult result b).mutableEvent := by
  unfold applyBlockingResult
  simp only [h1, h2, h3, h5]
  cases hP : result.eventDataPatch <;> cases hD : b.mutableEvent.data <;>
    cases hI : result.insights <;> cases hPD : b.permissionDecision <;>
      cases hRD : result.permissionDecision <;> cases hM : result.userMessageMutation <;>
        simp [hP, hD, hI, hPD, hRD, hM] <;> (repeat' split) <;> simp_all

set_option maxHeartbeats 1600000 in
theorem emitStep_blocking_congr (state : PersistedState) (ev0 : PluginEvent) (now : Nat)
    (p : PluginDefinition) (a b : EmitAcc) (hb : p.blocking = true)
    (h1 : a.insights = b.insights) (h2 : a.permissionDecision = b.permissionDecision)
    (h3 : a.userMessageMutation = b.userMessageMutation) (h4 : a.aborted = b.aborted)
    (h5 : a.mutableEvent = b.mutableEvent) (h6 : a.blockingTrace = b.blockingTrace)
    (h7 : a.ms.store.grants = b.ms.store.grants) :
    (emitStep state ev0 now p a).snd = (emitStep state ev0 now p b).snd ∧
    (emitStep state ev0 now p a).fst.insights = (emitStep state ev0 now p b).fst.insights ∧
    (emitStep state ev0 now p a).fst.permissionDecision =
      (emitStep state ev0 now p b).fst.permissionDecision ∧
    (emitStep state ev0 now p a).fst.userMessageMutation =
      (emitStep state ev0 now p b).fst.userMessageMutation ∧
    (emitStep state ev0 now p a).fst.aborted = (emitStep state ev0 now p b).fst.aborted ∧
    (emitStep state ev0 now p a).fst.mutableEvent =
      (emitStep state ev0 now p b).fst.mutableEvent ∧
    (emitStep state ev0 now p a).fst.blockingTrace =
      (emitStep state ev0 now p b).fst.blockingTrace ∧
    (emitStep state ev0 now p a).fst.ms.store.grants =
      (emitStep state ev0 now p b).fst.ms.store.grants := by
  have hgrants : ∀ (e : Bool) (ms' : ManagerState),
      (updateHealthFromEnabled p.id e now ms').store.grants = ms'.store.grants :=
    fun e ms' => by rw [(updateHealthFromEnabled_preserves _ _ _ _).1]
  have hgexec : ∀ (ev : PluginEvent) (sc : Option CVal) (ms' : ManagerState),
      (executePlugin p ev sc now ms').snd.store.grants = ms'.store.grants :=
    fun ev sc ms' => by rw [executePlugin_snd, (resolveConfig_preserves _ _ _ _).1]
  have hgstats : ∀ (d : Nat) (o : RunOutcome) (e : Option String) (ms' : ManagerState),
      (updateStatsOnRun p.id d o e now ms').store.grants = ms'.store.grants :=
    fun _ _ _ _ => rfl
  by_cases hen : (state.enabled.lookup p.id).getD p.defaultEnabled = true
  · have hms : (executePlugin p a.mutableEvent (state.config.lookup p.id) now
        (updateHealthFromEnabled p.id ((state.enabled.lookup p.id).getD p.defaultEnabled)
          now a.ms)).fst =
        (executePlugin p b.mutableEvent (state.config.lookup p.id) now
          (updateHealthFromEnabled p.id ((state.enabled.lookup p.id).getD p.defaultEnabled)
            now b.ms)).fst := by
      rw [h5]
      apply executePlugin_fst_congr
      rw [(updateHealthFromEnabled_preserves _ _ _ _).1,
        (updateHealthFromEnabled_preserves _ _ _ _).1, h7]
    simp only [emitStep, hen, hb, Bool.not_true, Bool.false_eq_true, if_false, if_true]
    rw [hen] at hms
    rw [hms]
    cases hE : (executePlugin p b.mutableEvent (state.config.lookup p.id) now
        (updateHealthFromEnabled p.id true now b.ms)).fst.error with
    | some err =>
      simp only [hE]
      by_cases hpol : p.failPolicy.getD .cont = .abortCurrentAction
      · simp [hpol, h1, h2, h3, h4, h5, h6, hgrants, hgexec, hgstats, h7]
      · simp [hpol, h1, h2, h3, h4, h5, h6, hgrants, hgexec, hgstats, h7]
    | none =>
      simp only [hE]
      cases hR : (executePlugin p b.mutableEvent (state.config.lookup p.id) now
          (updateHealthFromEnabled p.id true now b.ms)).fst.result with
      | none => simp [h1, h2, h3, h4, h5, h6, hgrants, hgexec, hgstats, h7]
      | some result =>
        simp only []
        have hob := applyBlockingResult_congr result
          { a with
            ms := updateStatsOnRun p.id
              ((executePlugin p b.mutableEvent (state.config.lookup p.id) now
                (updateHealthFromEnabled p.id true now b.ms)).fst.durationMs)
              .success none now
              (executePlugin p a.mutableEvent (state.config.lookup p.id) now
                (updateHealthFromEnabled p.id true now a.ms)).snd,
            blockingTrace := a.blockingTrace ++ [p.id] }
          { b with
            ms := updateStatsOnRun p.id
              ((executePlugin p b.mutableEvent (state.config.lookup p.id) now
                (updateHealthFromEnabled p.id true now b.ms)).fst.durationMs)
              .success none now
              (executePlugin p b.mutableEvent (state.config.lookup p.id) now
                (updateHealthFromEnabled p.id true now b.ms)).snd,
            blockingTrace := b.blockingTrace ++ [p.id] }
          (by simpa using h1) (by simpa using h2) (by simpa using h3) (by simpa using h5)
        obtain ⟨hoi, hop, hou, hom⟩ := hob
        obtain ⟨hba, hbt, hbm, _⟩ := applyBlockingResult_frame result
          ({ a with
            ms := updateStatsOnRun p.id
              ((executePlugin p b.mutableEvent (state.config.lookup p.id) now
                (updateHealthFromEnabled p.id true now b.ms)).fst.durationMs)
              .success none now
              (executePlugin p a.mutableEvent (state.config.lookup p.id) now
                (updateHealthFromEnabled p.id true now a.ms)).snd,
            blockingTrace := a.blockingTrace ++ [p.id] })
        obtain ⟨hba', hbt', hbm', _⟩ := applyBlockingResult_frame result
          ({ b with
            ms := updateStatsOnRun p.id
              ((executePlugin p b.mutableEvent (state.config.lookup p.id) now
                (updateHealthFromEnabled p.id true now b.ms)).fst.durationMs)
              .success none now
              (executePlugin p b.mutableEvent (state.config.lookup p.id) now
                (updateHealthFromEnabled p.id true now b.ms)).snd,
            blockingTrace := b.blockingTrace ++ [p.id] })
        refine ⟨by trivial, hoi, hop, hou, ?_, hom, ?_, ?_⟩
        · rw [hba, hba']
          simpa using h4
        · rw [hbt, hbt']
          simp [h6]
        · rw [hbm, hbm']
          simp [hgrants, hgexec, hgstats, h7]
  · have hen' : (state.enabled.lookup p.id).getD p.defaultEnabled = false := by
      simpa using hen
    simp only [emitStep, hen', Bool.not_false, if_true]
    simp [h1, h2, h3, h4, h5, h6, h7, hgrants]

theorem emitLoop_filter_blocking (state : PersistedState) (ev0 : PluginEvent) (now : Nat) :
    ∀ (plugins : List PluginDefinition) (a b : EmitAcc),
      a.insights = b.insights → a.permissionDecision = b.permissionDecision →
      a.userMessageMutation = b.userMessageMutation → a.aborted = b.aborted →
      a.mutableEvent = b.mutableEvent → a.blockingTrace = b.blockingTrace →
      a.ms.store.grants = b.ms.store.grants →
      ((emitLoop state ev0 now plugins a).insights =
        (emitLoop state ev0 now (plugins.filter (fun p => p.blocking)) b).insights ∧
       (emitLoop state ev0 now plugins a).permissionDecision =
        (emitLoop state ev0 now (plugins.filter (fun p => p.blocking)) b).permissionDecision ∧
       (emitLoop state ev0 now plugins a).userMessageMutation =
        (emitLoop state ev0 now (plugins.filter (fun p => p.blocking)) b).userMessageMutation ∧
       (emitLoop state ev0 now plugins a).aborted =
        (emitLoop state ev0 now (plugins.filter (fun p => p.blocking)) b).aborted ∧
       (emitLoop state ev0 now plugins a).mutableEvent =
        (emitLoop state ev0 now (plugins.filter (fun p => p.blocking)) b).mutableEvent ∧
       (emitLoop state ev0 now plugins a).blockingTrace =
        (emitLoop state ev0 now (plugins.filter (fun p => p.blocking)) b).blockingTrace)
  | [], a, b, h1, h2, h3, h4, h5, h6, _ => by
    simp only [List.filter_nil, emitLoop]
    exact ⟨h1, h2, h3, h4, h5, h6⟩
  | p :: rest, a, b, h1, h2, h3, h4, h5, h6, h7 => by
    by_cases hpb : p.blocking = true
    · have hfl : (p :: rest).filter (fun q => q.blocking) =
          p :: rest.filter (fun q => q.blocking) := by
        simp [List.filter_cons, hpb]
      rw [hfl]
      obtain ⟨hsnd, k1, k2, k3, k4, k5, k6, k7⟩ :=
        emitStep_blocking_congr state ev0 now p a b hpb h1 h2 h3 h4 h5 h6 h7
      simp only [emitLoop]
      cases hs : (emitStep state ev0 now p b).snd with
      | true =>
        have hsa : (emitStep state ev0 now p a).snd = true := by rw [hsnd, hs]
        simp only [hsa, hs, if_true]
        exact ⟨k1, k2, k3, k4, k5, k6⟩
      | false =>
        have hsa : (emitStep state ev0 now p a).snd = false := by rw [hsnd, hs]
        simp only [hsa, hs, Bool.false_eq_true, if_false]
        exact emitLoop_filter_blocking state ev0 now rest _ _ k1 k2 k3 k4 k5 k6 k7
    · have hpb' : p.blocking = false := by simpa using hpb
      have hfl : (p :: rest).filter (fun q => q.blocking) =
          rest.filter (fun q => q.blocking) := by
        simp [List.filter_cons, hpb']
      rw [hfl]
      obtain ⟨o1, o2, o3, o4, o5, o6, o7⟩ := emitStep_nonblocking_obs state ev0 now p a hpb'
      obtain ⟨g1, _, _, _, _⟩ := emitStep_facts state ev0 now p a
      simp only [emitLoop, o7, Bool.false_eq_true, if_false]
      exact emitLoop_filter_blocking state ev0 now rest _ _ (o1.trans h1) (o2.trans h2)
        (o3.trans h3) (o4.trans h4) (o5.trans h5) (o6.trans h6) (g1.trans h7)

theorem orderedInsert_all_ge (x : PluginDefinition) :
    ∀ (M : List PluginDefinition), (∀ y ∈ M, prioGe x y) →
      List.orderedInsert prioGe x M = x :: M
  | [], _ => rfl
  | b :: t, h => by
    simp only [List.orderedInsert]
    rw [if_pos (h b (List.mem_cons_self b t))]

theorem filter_orderedInsert_sorted (q : PluginDefinition → Bool) (x : PluginDefinition) :
    ∀ (L : List PluginDefinition), L.Sorted prioGe →
      (List.orderedInsert prioGe x L).filter q =
        if q x then List.orderedInsert prioGe x (L.filter q) else L.filter q
  | [], _ => by
    simp only [List.orderedInsert, List.filter_cons, List.filter_nil]
  | b :: L, hs => by
    obtain ⟨hball, hLs⟩ := List.sorted_cons.mp hs
    by_cases hle : prioGe x b
    · rw [List.orderedInsert_of_le prioGe L hle]
      have hall : ∀ y ∈ (b :: L).filter q, prioGe x y := by
        intro y hy
        have hy' := List.mem_of_mem_filter hy
        rcases List.mem_cons.mp hy' with rfl | hyL
        · exact hle
        · exact le_trans (hball y hyL) hle
      by_cases hqx : q x = true
      · rw [if_pos hqx]
        rw [orderedInsert_all_ge x ((b :: L).filter q) hall]
        simp [List.filter_cons, hqx]
      · have hqx' : q x = false := by simpa using hqx
        simp [List.filter_cons, hqx']
    · have horder : List.orderedInsert prioGe x (b :: L) =
          b :: List.orderedInsert prioGe x L := by
        simp only [List.orderedInsert]
        rw [if_neg hle]
      rw [horder]
      simp only [List.filter_cons]
      rw [filter_orderedInsert_sorted q x L hLs]
      by_cases hqx : q x = true
      · by_cases hqb : q b = true
        · simp only [hqx, hqb, if_true]
          have horder2 : List.orderedInsert prioGe x (b :: L.filter q) =
              b :: List.orderedInsert prioGe x (L.filter q) := by
            simp only [List.orderedInsert]
            rw [if_neg hle]
          rw [horder2]
        · have hqb' : q b = false := by simpa using hqb
          simp [hqx, hqb']
      · have hqx' : q x = false := by simpa using hqx
        by_cases hqb : q b = true
        · simp [hqx', hqb]
        · have hqb' : q b = false := by simpa using hqb
          simp [hqx', hqb']

theorem filter_insertionSort (q : PluginDefinition → Bool) :
    ∀ (l : List PluginDefinition),
      (l.insertionSort prioGe).filter q = (l.filter q).insertionSort prioGe
  | [] => rfl
  | x :: l => by
    simp only [List.insertionSort, List.filter_cons]
    rw [filter_orderedInsert_sorted q x (l.insertionSort prioGe)
      (List.sorted_insertionSort prioGe l)]
    rw [filter_insertionSort q l]
    by_cases hqx : q x = true
    · simp [hqx, List.insertionSort]
    · have hqx' : q x = false := by simpa using hqx
      simp [hqx', List.insertionSort]

theorem candidatesOf_filter_blocking (defs : List PluginDefinition) (n : String) :
    candidatesOf (defs.filter (fun p => p.blocking)) n =
      (candidatesOf defs n).filter (fun p => p.blocking) := by
  unfold candidatesOf
  rw [filter_insertionSort]
  congr 1
  rw [List.filter_filter, List.filter_filter]
  apply List.filter_congr
  intro p _
  rw [Bool.and_comm]

/-- C9: non-blocking plugins leave no trace on the dispatch result — the
returned `EmitResult` (insights, permissionDecision, userMessageMutation,
aborted), the derived event, and the blocking execution order are the same
as if every non-blocking plugin were absent from the registry; their
permission decisions, message mutations and event patches are discarded,
and their failures never set `aborted`.  Only their `onInsight` deliveries
and telemetry are observable. -/
theorem nonblocking_frame (ev : PluginEvent) (now : Nat) (ms : ManagerState) :
    (emit ev now ms).fst.result =
      (emit ev now
        { ms with definitions := ms.definitions.filter (fun p => p.blocking) }).fst.result ∧
    (emit ev now ms).fst.finalEvent =
      (emit ev now
        { ms with definitions := ms.definitions.filter (fun p => p.blocking) }).fst.finalEvent ∧
    (emit ev now ms).fst.blockingTrace =
      (emit ev now
        { ms with definitions := ms.definitions.filter (fun p => p.blocking) }).fst.blockingTrace := by
  obtain ⟨k1, k2, k3, k4, k5, k6⟩ := emitLoop_filter_blocking ms.store ev now
    (candidatesOf ms.definitions ev.name)
    { mutableEvent := ev, ms := ms }
    { mutableEvent := ev,
      ms := { ms with definitions := ms.definitions.filter (fun p => p.blocking) } }
    rfl rfl rfl rfl rfl rfl rfl
  have hcand : candidatesOf (ms.definitions.filter (fun p => p.blocking)) ev.name =
      (candidatesOf ms.definitions ev.name).filter (fun p => p.blocking) :=
    candidatesOf_filter_blocking ms.definitions ev.name
  refine ⟨?_, ?_, ?_⟩
  · simp only [emit, hcand]
    simp only [EmitResult.mk.injEq]
    exact ⟨k1, k2, k3, k4⟩
  · simp only [emit, hcand]
    exact k5
  · simp only [emit, hcand]
    exact k6
